import Mathlib

/-!
Verification of the `google-reader-rs` client (`src/lib.rs`): a Google
Reader-protocol session with lazy token acquisition, request construction and
response parsing.

The Rust code is shallowly embedded: the mutable `GoogleReader` struct becomes
a record threaded explicitly through each operation, the HTTP transport becomes
an oracle `Transport : Request → TResp`, `anyhow` error chains become lists of
context strings (outermost context first), async is erased (every operation is
a single sequential request/response exchange), and `unwrap` panics are modeled
by the `OpResult.panic` constructor.

External collaborators are modeled from their documented behavior on the
fragment this client exercises:
* `url::Url` is modeled for absolute `http`/`https` URLs whose path needs no
  percent-encoding and contains no `.`/`..` segments (the inputs this client
  produces): parsing lowercases scheme and authority, normalizes an empty path
  to `/`, and splits the path on `/`; `path_segments_mut().push` appends a
  segment (replacing the single empty segment of a root path); `set_query`
  percent-encodes its argument with the special-scheme query encode set
  (controls, bytes above `~`, space, double quote, hash, angle brackets and the
  apostrophe are escaped as `%XX` over UTF-8 bytes).
* `regex` `Auth=(\S+)`: leftmost match of the literal `Auth=` followed by a
  maximal nonempty run of non-whitespace characters.
* `http::HeaderValue::from_str`: accepts tab and any byte that is at least
  0x20 and not 0x7F (so every character above ASCII is accepted).
* `str::parse::<usize>`: optional leading `+`, one or more ASCII digits, value
  at most `2^64 - 1` (64-bit target).
* `serde_json` decoding of the item list is kept abstract: `get_unread_items`
  is parameterized by a decoder `String → Option Response`.
-/

namespace GReader

/-! ## Characters and strings -/

/-- Whitespace as matched by the regex character class `\s` under the regex
crate's default Unicode semantics: the Unicode `White_Space` code points
U+0009..U+000D, U+0020, U+0085, U+00A0, U+1680, U+2000..U+200A, U+2028,
U+2029, U+202F, U+205F and U+3000. -/
def rsIsSpace (c : Char) : Bool :=
  let n := c.toNat
  (0x09 ≤ n && n ≤ 0x0D) || n = 0x20 || n = 0x85 || n = 0xA0 || n = 0x1680 ||
    (0x2000 ≤ n && n ≤ 0x200A) || n = 0x2028 || n = 0x2029 || n = 0x202F ||
    n = 0x205F || n = 0x3000

/-- Maximal leading run of non-whitespace characters, as matched greedily by
`\S+` after the first character. -/
def takeNonSpace : List Char → List Char
  | [] => []
  | c :: cs => if rsIsSpace c then [] else c :: takeNonSpace cs

/-- The literal `Auth=` that the login response is scanned for. -/
def authLit : List Char := ['A', 'u', 't', 'h', '=']

/-- One attempt of the regex `Auth=(\S+)` anchored at the start of `l`:
`Auth=` must be present followed by at least one non-whitespace character;
the capture is the maximal non-whitespace run. -/
def startRun (l : List Char) : Option (List Char) :=
  if l.take 5 = authLit then
    match l.drop 5 with
    | [] => none
    | c :: rest => if rsIsSpace c then none else some (c :: takeNonSpace rest)
  else none

/-- Leftmost match of `Auth=(\S+)`: try the current position, else advance one
character, exactly as the regex engine backtracks (src/lib.rs:119,128-130). -/
def findAuth : List Char → Option (List Char)
  | [] => none
  | c :: cs =>
    match startRun (c :: cs) with
    | some tok => some tok
    | none => findAuth cs

/-- The `authtoken` capture group extracted from a login response body. -/
def extractAuth (s : String) : Option String :=
  (findAuth s.data).map List.asString

/-- `if body.ends_with('\x0a') { body.strip_suffix('\x0a') }` from
`get_write_token` (src/lib.rs:167-169): drop one trailing newline, if any. -/
def stripNewline (s : String) : String :=
  match s.data.getLast? with
  | some '\n' => (s.data.dropLast).asString
  | _ => s

/-- `server_url.ends_with('/')` / `strip_suffix('/')` from `try_new`
(src/lib.rs:75-82): drop one trailing slash, if any. -/
def stripTrailingSlash (s : String) : String :=
  match s.data.getLast? with
  | some '/' => (s.data.dropLast).asString
  | _ => s

/-- Value of a list of ASCII digits, most significant first. -/
def digitsVal (l : List Char) : Nat :=
  l.foldl (fun a c => a * 10 + (c.toNat - 48)) 0

/-- Largest `usize` value on the 64-bit targets this crate builds for. -/
def usizeMax : Nat := 2 ^ 64 - 1

/-- Model of `str::parse::<usize>`: an optional leading `+`, then one or more
ASCII digits, failing on anything else and on overflow. -/
def parseUsize (s : String) : Option Nat :=
  let l := match s.data with
    | '+' :: rest => rest
    | l => l
  if l = [] then none
  else if l.all Char.isDigit then
    let v := digitsVal l
    if v ≤ usizeMax then some v else none
  else none

/-- A character every `http::HeaderValue` byte of which is accepted:
tab, or at least 0x20 and not the DEL byte (characters above ASCII encode to
bytes 0x80-0xF4, all accepted). -/
def headerValueChar (c : Char) : Bool :=
  c = '\t' || (0x20 ≤ c.toNat && c.toNat ≠ 0x7F)

/-- `HeaderValue::from_str` succeeds exactly when every character is valid. -/
def headerValueValid (s : String) : Bool :=
  s.data.all headerValueChar

/-! ## Percent-encoding of query strings (url crate `set_query`) -/

/-- Uppercase hexadecimal digit. -/
def hexDigit (n : Nat) : Char :=
  if n < 10 then Char.ofNat (48 + n) else Char.ofNat (55 + n)

/-- UTF-8 bytes of a character. -/
def utf8Bytes (c : Char) : List Nat :=
  let n := c.toNat
  if n < 0x80 then [n]
  else if n < 0x800 then [0xC0 + n / 0x40, 0x80 + n % 0x40]
  else if n < 0x10000 then [0xE0 + n / 0x1000, 0x80 + n / 0x40 % 0x40, 0x80 + n % 0x40]
  else [0xF0 + n / 0x40000, 0x80 + n / 0x1000 % 0x40, 0x80 + n / 0x40 % 0x40, 0x80 + n % 0x40]

/-- `%XX` escape of one byte. -/
def percentByte (b : Nat) : List Char := ['%', hexDigit (b / 16), hexDigit (b % 16)]

/-- Characters the special-scheme query percent-encode set leaves unescaped. -/
def querySafe (c : Char) : Bool :=
  0x21 ≤ c.toNat && c.toNat ≤ 0x7E &&
    !(c = '"' || c = '#' || c = '<' || c = '>' || c = '\'')

/-- One character of `set_query` input: kept verbatim if safe, else escaped
bytewise. -/
def encodeQueryChar (c : Char) : List Char :=
  if querySafe c then [c] else (utf8Bytes c).map percentByte |>.flatten

/-- Percent-encoding applied by `Url::set_query` to its whole argument. -/
def encodeQuery (s : String) : String :=
  ((s.data.map encodeQueryChar).flatten).asString

/-! ## The url crate model -/

/-- An absolute `http`/`https` URL: the serialized form is
`scheme ++ "://" ++ host ++ "/" ++ segments joined by "/" ++ ?query ++ #frag`.
A root path is the single empty segment `[""]`. -/
structure Url where
  scheme : String
  host : String
  segments : List String
  query : Option String
  frag : Option String
deriving DecidableEq, Repr

/-- `path_segments_mut().push(seg)` at the segment level: a root (or empty)
path is replaced by the pushed segment, otherwise the segment is appended. -/
def pushSegList (b : List String) (s : String) : List String :=
  match b with
  | [] => [s]
  | [""] => [s]
  | l => l ++ [s]

/-- `url.path_segments_mut().unwrap().push(seg)` (infallible for http URLs). -/
def Url.pushSeg (u : Url) (s : String) : Url :=
  { u with segments := pushSegList u.segments s }

/-- A chain of `push` calls, as each operation builds its endpoint path. -/
def pushSegs (u : Url) (segs : List String) : Url :=
  segs.foldl Url.pushSeg u

/-- `url.set_query`: store the percent-encoded argument. -/
def Url.setQuery (u : Url) (q : Option String) : Url :=
  { u with query := q.map encodeQuery }

/-- Path component of the serialization. -/
def joinSlash : List String → String
  | [] => ""
  | [s] => s
  | s :: rest => s ++ "/" ++ joinSlash rest

/-- Serialized path: always starts with `/`. -/
def Url.pathStr (u : Url) : String := "/" ++ joinSlash u.segments

/-- Full serialization of the URL, as `Url::as_str` renders it. -/
def Url.toStr (u : Url) : String :=
  u.scheme ++ "://" ++ u.host ++ u.pathStr
    ++ (match u.query with | some q => "?" ++ q | none => "")
    ++ (match u.frag with | some f => "#" ++ f | none => "")

/-- Scheme scanner: alphanumeric / `+` / `-` / `.` characters up to `:`. -/
def schemeGo (acc : List Char) : List Char → Option (List Char × List Char)
  | [] => none
  | ':' :: rest => some (acc.reverse, rest)
  | c :: cs =>
    if c.isAlpha || c.isDigit || c = '+' || c = '-' || c = '.'
    then schemeGo (c :: acc) cs else none

/-- Split off the scheme of an absolute URL (first character alphabetic). -/
def takeScheme : List Char → Option (List Char × List Char)
  | [] => none
  | c :: cs => if c.isAlpha then schemeGo [c] cs else none

/-- Longest prefix whose characters all fail `p`, with the remainder. -/
def takeUntil (p : Char → Bool) : List Char → List Char × List Char
  | [] => ([], [])
  | c :: cs =>
    if p c then ([], c :: cs)
    else
      let r := takeUntil p cs
      (c :: r.1, r.2)

/-- Split a path (without its leading slash) into segments at `/`. -/
def splitOnSlash : List Char → List (List Char)
  | [] => [[]]
  | c :: rest =>
    if c = '/' then [] :: splitOnSlash rest
    else
      match splitOnSlash rest with
      | [] => [[c]]
      | s :: ss => (c :: s) :: ss

/-- Path portion of an authority-relative remainder: a leading `/` starts a
path running to `?` or `#`, split into segments; otherwise the path is empty
and normalizes to the root path. -/
def parsePath (rest3 : List Char) : List (List Char) × List Char :=
  match rest3 with
  | [] => ([[]], [])
  | c :: ps =>
    if c = '/' then
      let pr := takeUntil (fun d => d = '?' || d = '#') ps
      (splitOnSlash pr.1, pr.2)
    else ([[]], c :: ps)

/-- `Url::parse`, on the fragment of the grammar this client exercises:
absolute `http`/`https` URLs with a nonempty authority; scheme and authority
are lowercased, an absent path is normalized to the root path `/`, the query
is percent-encoded as `set_query` would. -/
def Url.parse (s : String) : Option Url :=
  match takeScheme s.data with
  | none => none
  | some (sch, rest) =>
    let scheme := (sch.map Char.toLower).asString
    if scheme = "http" ∨ scheme = "https" then
      match rest with
      | '/' :: '/' :: rest2 =>
        let hp := takeUntil (fun c => c = '/' || c = '?' || c = '#') rest2
        if hp.1 = [] then none
        else
          let host := (hp.1.map Char.toLower).asString
          let pq : List (List Char) × List Char := parsePath hp.2
          let qf : Option String × List Char :=
            match pq.2 with
            | '?' :: qs =>
              let qr := takeUntil (fun c => c = '#') qs
              (some (encodeQuery qr.1.asString), qr.2)
            | r => (none, r)
          let frag : Option String :=
            match qf.2 with
            | '#' :: fs => some fs.asString
            | _ => none
          some { scheme := scheme, host := host,
                 segments := pq.1.map List.asString,
                 query := qf.1, frag := frag }
      | _ => none
    else none

/-! ## Wire data model (src/lib.rs:27-65) -/

/-- A link to a resource. -/
structure Link where
  href : String
deriving DecidableEq, Repr

/-- Item summary. -/
structure Summary where
  content : Option String
  author : Option String
deriving DecidableEq, Repr

/-- Feed item (`HashMap<String, String>` becomes an association list). -/
structure Item where
  id : String
  crawl_time_msec : Option String
  timestamp_usec : Option String
  updated : Option Nat
  published : Option Nat
  title : String
  canonical : List Link
  alternate : List Link
  categories : List String
  origin : List (String × String)
  summary : Summary
deriving DecidableEq, Repr

/-- Response from the reading-list API. -/
structure Response where
  id : String
  items : List Item
  updated : Nat
  continuation : Option String
deriving DecidableEq, Repr

/-! ## Requests, transport and errors -/

/-- HTTP method used by this client. -/
inductive Method where
  | get
  | post
deriving DecidableEq, Repr

/-- One HTTP request as this client assembles it: method, URL, header map and
optional form body. -/
structure Request where
  method : Method
  url : Url
  headers : List (String × String)
  form : Option (List (String × String))
deriving DecidableEq, Repr

/-- The transport's answer to one request: a successfully read body, a failure
of `send()`, or a failure of `text()` after a successful send. -/
inductive TResp where
  | ok (body : String)
  | sendErr
  | bodyErr
deriving DecidableEq, Repr

/-- Deterministic transport oracle standing in for the network. -/
abbrev Transport := Request → TResp

/-- An `anyhow` error chain: the `with_context` messages, outermost first. -/
abbrev Err := List String

/-! ## The session -/

/-- The `GoogleReader` struct (src/lib.rs:17-25); the lazily created
`reqwest::Client` is tracked as a Boolean. -/
structure GoogleReader where
  username : String
  password : String
  server_url : Url
  authtoken : Option String
  write_token : Option String
  client : Bool
deriving DecidableEq, Repr

/-- Equality of `anyhow::Result` values is decidable. -/
instance exceptDecEq {ε α : Type} [DecidableEq ε] [DecidableEq α] :
    DecidableEq (Except ε α) := fun a b =>
  match a, b with
  | Except.error e, Except.error f =>
    if h : e = f then Decidable.isTrue (h ▸ rfl) else Decidable.isFalse (by simpa using h)
  | Except.ok x, Except.ok y =>
    if h : x = y then Decidable.isTrue (h ▸ rfl) else Decidable.isFalse (by simpa using h)
  | Except.error _, Except.ok _ => Decidable.isFalse (by simp)
  | Except.ok _, Except.error _ => Decidable.isFalse (by simp)

/-- Outcome of one operation: an `unwrap` panic, or an `anyhow::Result`
together with the final session state; either way the list of requests
attempted so far, in order. -/
inductive OpResult (α : Type) where
  | panic (g : GoogleReader) (trace : List Request)
  | done (r : Except Err α) (g : GoogleReader) (trace : List Request)
deriving Repr, DecidableEq

/-- Session state at the end of the operation (or at the panic). -/
def OpResult.state : OpResult α → GoogleReader
  | .panic g _ => g
  | .done _ g _ => g

/-- Requests attempted by the operation, in order. -/
def OpResult.trace : OpResult α → List Request
  | .panic _ tr => tr
  | .done _ _ tr => tr

/-- The `anyhow::Result`, when the operation did not panic. -/
def OpResult.res : OpResult α → Option (Except Err α)
  | .panic _ _ => none
  | .done r _ _ => some r

/-- `GoogleReader::try_new` (src/lib.rs:70-93): strip one trailing `/`, parse,
and start with no tokens and no client. -/
def try_new (username password server_url : String) : Except Err GoogleReader :=
  let su := stripTrailingSlash server_url
  match Url.parse su with
  | none => Except.error ["Failed to parse server URL"]
  | some u =>
    Except.ok { username := username, password := password, server_url := u,
                authtoken := none, write_token := none, client := false }

/-- The login endpoint `{base}/accounts/ClientLogin` (src/lib.rs:97-101). -/
def loginUrl (g : GoogleReader) : Url :=
  (g.server_url.pushSeg "accounts").pushSeg "ClientLogin"

/-- The form POST that `login` sends (src/lib.rs:105-117). -/
def loginRequest (g : GoogleReader) : Request :=
  { method := Method.post, url := loginUrl g, headers := [],
    form := some [("Email", g.username), ("Passwd", g.password)] }

/-- `GoogleReader::login` (src/lib.rs:96-137): POST the credentials form,
extract `Auth=(\S+)` from the body and cache the capture; the client is
created first if absent.  `login` never panics; its result is wrapped in
`OpResult` for uniformity with the other operations. -/
def login (g : GoogleReader) (t : Transport) : OpResult Unit :=
  let g1 := if g.client then g else { g with client := true }
  let req := loginRequest g
  match t req with
  | TResp.sendErr => OpResult.done (Except.error ["Failed to send login request"]) g1 [req]
  | TResp.bodyErr => OpResult.done (Except.error ["Failed to get login response body"]) g1 [req]
  | TResp.ok body =>
    match extractAuth body with
    | none => OpResult.done (Except.error ["Failed to parse login response"]) g1 [req]
    | some tok => OpResult.done (Except.ok ()) { g1 with authtoken := some tok } [req]

/-- The header value `GoogleLogin auth={token}`. -/
def authHeaderValue (tok : String) : String := "GoogleLogin auth=" ++ tok

/-- `GoogleReader::get_auth_headers` (src/lib.rs:239-250): the single
`Authorization` header.  `none` models a panic of either `unwrap`: the cached
token being absent, or `HeaderValue` parsing rejecting the value. -/
def get_auth_headers (g : GoogleReader) : Option (List (String × String)) :=
  match g.authtoken with
  | none => none
  | some tok =>
    if headerValueValid (authHeaderValue tok)
    then some [("Authorization", authHeaderValue tok)]
    else none

/-- `GoogleReader::get_write_token` (src/lib.rs:140-174): ensure the auth
token (logging in if absent), GET `{base}/reader/api/0/token`, strip one
trailing newline from the body, cache and return it. -/
def get_write_token (g : GoogleReader) (t : Transport) : OpResult String :=
  match (if g.authtoken.isNone then login g t else OpResult.done (Except.ok ()) g []) with
  | OpResult.panic g1 tr => OpResult.panic g1 tr
  | OpResult.done (Except.error e) g1 tr =>
    OpResult.done (Except.error ("Failed to login" :: e)) g1 tr
  | OpResult.done (Except.ok _) g1 tr =>
    let url := pushSegs g1.server_url ["reader", "api", "0", "token"]
    match g1.client with
    | false => OpResult.panic g1 tr
    | true =>
      match get_auth_headers g1 with
      | none => OpResult.panic g1 tr
      | some hs =>
        let req : Request := { method := Method.get, url := url, headers := hs, form := none }
        match t req with
        | TResp.sendErr =>
          OpResult.done (Except.error ["Failed to get write token"]) g1 (tr ++ [req])
        | TResp.bodyErr =>
          OpResult.done (Except.error ["Failed to get write token response body"]) g1 (tr ++ [req])
        | TResp.ok body0 =>
          let body := stripNewline body0
          OpResult.done (Except.ok body) { g1 with write_token := some body } (tr ++ [req])

/-- Path of the reading-list endpoint (src/lib.rs:187-199). -/
def readingListSegs : List String :=
  ["reader", "api", "0", "stream", "contents", "user", "-", "state", "com.google",
   "reading-list"]

/-- Fixed query of the reading-list endpoint (src/lib.rs:206). -/
def fixedListQuery : String := "r=n&xt=user/-/state/com.google/read"

/-- `GoogleReader::get_unread_items` (src/lib.rs:177-234): ensure the auth
token, GET the reading-list endpoint with the fixed query (prepending
`c={continuation}&` when a cursor is given), and decode the JSON body; the
decoder `jp` stands in for `serde_json::from_str::<Response>`. -/
def get_unread_items (jp : String → Option Response) (g : GoogleReader) (t : Transport)
    (continuation : Option String) : OpResult Response :=
  match (if g.authtoken.isNone then login g t else OpResult.done (Except.ok ()) g []) with
  | OpResult.panic g1 tr => OpResult.panic g1 tr
  | OpResult.done (Except.error e) g1 tr =>
    OpResult.done (Except.error ("Failed to login" :: e)) g1 tr
  | OpResult.done (Except.ok _) g1 tr =>
    let url0 := pushSegs g1.server_url readingListSegs
    let url1 := url0.setQuery (some fixedListQuery)
    let url :=
      match continuation with
      | some c => url1.setQuery (some ("c=" ++ c ++ "&" ++ (url1.query.getD "")))
      | none => url1
    match g1.client with
    | false => OpResult.panic g1 tr
    | true =>
      match get_auth_headers g1 with
      | none => OpResult.panic g1 tr
      | some hs =>
        let req : Request := { method := Method.get, url := url, headers := hs, form := none }
        match t req with
        | TResp.sendErr =>
          OpResult.done (Except.error ["Failed to send unread-items request"]) g1 (tr ++ [req])
        | TResp.bodyErr =>
          OpResult.done (Except.error ["Failed to parse unread items response body"]) g1
            (tr ++ [req])
        | TResp.ok body =>
          match jp body with
          | none =>
            OpResult.done (Except.error ["Failed to parse unread items response body"]) g1
              (tr ++ [req])
          | some response => OpResult.done (Except.ok response) g1 (tr ++ [req])

/-- `GoogleReader::mark_item_read` (src/lib.rs:253-297): ensure the auth
token, use the cached write token or fetch one, then POST the `edit-tag` form
`a`/`T`/`i` and return the body verbatim. -/
def mark_item_read (g : GoogleReader) (t : Transport) (item_id : String) : OpResult String :=
  match (if g.authtoken.isNone then login g t else OpResult.done (Except.ok ()) g []) with
  | OpResult.panic g1 tr => OpResult.panic g1 tr
  | OpResult.done (Except.error e) g1 tr =>
    OpResult.done (Except.error ("Failed to login" :: e)) g1 tr
  | OpResult.done (Except.ok _) g1 tr =>
    match (match g1.write_token with
           | some val => OpResult.done (Except.ok val) g1 []
           | none => get_write_token g1 t) with
    | OpResult.panic g2 tr2 => OpResult.panic g2 (tr ++ tr2)
    | OpResult.done (Except.error e) g2 tr2 =>
      OpResult.done (Except.error ("Failed to get write token" :: e)) g2 (tr ++ tr2)
    | OpResult.done (Except.ok write_token) g2 tr2 =>
      let params := [("a", "user/-/state/com.google/read"), ("T", write_token),
                     ("i", item_id)]
      let url := pushSegs g2.server_url ["reader", "api", "0", "edit-tag"]
      match g2.client with
      | false => OpResult.panic g2 (tr ++ tr2)
      | true =>
        match get_auth_headers g2 with
        | none => OpResult.panic g2 (tr ++ tr2)
        | some hs =>
          let req : Request :=
            { method := Method.post, url := url, headers := hs, form := some params }
          match t req with
          | TResp.sendErr =>
            OpResult.done (Except.error ["Failed to get write token"]) g2 (tr ++ tr2 ++ [req])
          | TResp.bodyErr =>
            OpResult.done (Except.error ["Failed to get write token response body"]) g2
              (tr ++ tr2 ++ [req])
          | TResp.ok body => OpResult.done (Except.ok body) g2 (tr ++ tr2 ++ [req])

/-- `GoogleReader::unread_count` (src/lib.rs:300-333): ensure the auth token,
GET `{base}/reader/api/0/unread-count` and parse the body as a `usize`. -/
def unread_count (g : GoogleReader) (t : Transport) : OpResult Nat :=
  match (if g.authtoken.isNone then login g t else OpResult.done (Except.ok ()) g []) with
  | OpResult.panic g1 tr => OpResult.panic g1 tr
  | OpResult.done (Except.error e) g1 tr =>
    OpResult.done (Except.error ("Failed to login" :: e)) g1 tr
  | OpResult.done (Except.ok _) g1 tr =>
    let url := pushSegs g1.server_url ["reader", "api", "0", "unread-count"]
    match g1.client with
    | false => OpResult.panic g1 tr
    | true =>
      match get_auth_headers g1 with
      | none => OpResult.panic g1 tr
      | some hs =>
        let req : Request := { method := Method.get, url := url, headers := hs, form := none }
        match t req with
        | TResp.sendErr =>
          OpResult.done (Except.error ["Failed to send unread-items request"]) g1 (tr ++ [req])
        | TResp.bodyErr =>
          OpResult.done (Except.error ["Failed to get unread count response body"]) g1
            (tr ++ [req])
        | TResp.ok body =>
          match parseUsize body with
          | none =>
            OpResult.done (Except.error ["Failed to parse unread count response"]) g1
              (tr ++ [req])
          | some n => OpResult.done (Except.ok n) g1 (tr ++ [req])

/-! ## Basic string lemmas -/

theorem asString_data (l : List Char) : (List.asString l).data = l := rfl

theorem mk_data (s : String) : (⟨s.data⟩ : String) = s := rfl

/-- Appending a newline and stripping it round-trips: the strip removes
exactly the one trailing newline. -/
theorem stripNewline_concat (s : String) : stripNewline (s ++ "\n") = s := by
  have h : (s ++ "\n").data = s.data ++ ['\n'] := by simp [String.data_append]
  simp only [stripNewline, h]
  simp [asString_data, mk_data, String.ext_iff]

/-- A body with no trailing newline is left unchanged. -/
theorem stripNewline_of_no_newline (s : String) (h : s.data.getLast? ≠ some '\n') :
    stripNewline s = s := by
  unfold stripNewline
  split
  · simp_all
  · rfl

/-! ## Login lemmas -/

/-- `login` sends exactly one request: the credentials POST. -/
theorem login_trace (g : GoogleReader) (t : Transport) :
    (login g t).trace = [loginRequest g] := by
  simp only [login]
  cases he : t (loginRequest g) with
  | ok body => cases hx : extractAuth body <;> simp [hx, OpResult.trace]
  | sendErr => simp [OpResult.trace]
  | bodyErr => simp [OpResult.trace]

/-- `login` never panics: it always yields a `done` outcome with the single
login request as its trace. -/
theorem login_shape (g : GoogleReader) (t : Transport) :
    ∃ r g1, login g t = OpResult.done r g1 [loginRequest g] := by
  simp only [login]
  cases he : t (loginRequest g) with
  | ok body => cases hx : extractAuth body <;> simp only [hx] <;> exact ⟨_, _, rfl⟩
  | sendErr => exact ⟨_, _, rfl⟩
  | bodyErr => exact ⟨_, _, rfl⟩

/-- Fields `login` never writes, and the client it always ensures. -/
theorem login_state (g : GoogleReader) (t : Transport) :
    (login g t).state.username = g.username ∧
    (login g t).state.password = g.password ∧
    (login g t).state.server_url = g.server_url ∧
    (login g t).state.write_token = g.write_token ∧
    (login g t).state.client = true := by
  simp only [login]
  cases he : t (loginRequest g) with
  | ok body =>
    cases hx : extractAuth body <;> by_cases hc : g.client <;>
      simp [hx, hc, OpResult.state]
  | sendErr => by_cases hc : g.client <;> simp [hc, OpResult.state]
  | bodyErr => by_cases hc : g.client <;> simp [hc, OpResult.state]

/-- A failed `login` leaves the cached auth token untouched. -/
theorem login_error_auth (g : GoogleReader) (t : Transport) (e : Err) (g1 : GoogleReader)
    (tr : List Request) (h : login g t = OpResult.done (Except.error e) g1 tr) :
    g1.authtoken = g.authtoken ∧ tr = [loginRequest g] := by
  simp only [login] at h
  cases he : t (loginRequest g) <;> simp only [he] at h
  case ok body =>
    cases hx : extractAuth body <;> simp only [hx] at h <;>
      by_cases hc : g.client <;> simp [hc] at h <;>
        exact ⟨by rw [← h.2.1], h.2.2.symm⟩
  all_goals
    by_cases hc : g.client <;> simp [hc] at h <;>
      exact ⟨by rw [← h.2.1], h.2.2.symm⟩

/-- A successful `login` has read a body whose `Auth=(\S+)` capture it cached. -/
theorem login_ok_auth (g : GoogleReader) (t : Transport) (g1 : GoogleReader)
    (tr : List Request) (h : login g t = OpResult.done (Except.ok ()) g1 tr) :
    ∃ body tok, t (loginRequest g) = TResp.ok body ∧ extractAuth body = some tok ∧
      g1.authtoken = some tok ∧ g1.client = true ∧ tr = [loginRequest g] := by
  simp only [login] at h
  cases he : t (loginRequest g) <;> simp only [he] at h
  case ok body =>
    cases hx : extractAuth body <;> simp only [hx] at h <;>
      by_cases hc : g.client <;> simp [hc] at h
    case pos tok =>
      exact ⟨body, tok, rfl, hx, by simp [← h.1], by simp [← h.1, hc], h.2.symm⟩
    case neg tok =>
      exact ⟨body, tok, rfl, hx, by simp [← h.1], by simp [← h.1], h.2.symm⟩
  all_goals by_cases hc : g.client <;> simp [hc] at h

/-- On a readable body, `login` succeeds exactly when the `Auth=` pattern
matches, caching the capture; on no match it fails with the parse context and
the token is unchanged. -/
theorem login_of_body (g : GoogleReader) (t : Transport) (body : String)
    (ht : t (loginRequest g) = TResp.ok body) :
    (∀ tok, extractAuth body = some tok →
      ∃ g1, login g t = OpResult.done (Except.ok ()) g1 [loginRequest g] ∧
        g1.authtoken = some tok) ∧
    (extractAuth body = none →
      ∃ g1, login g t = OpResult.done (Except.error ["Failed to parse login response"]) g1
          [loginRequest g] ∧ g1.authtoken = g.authtoken) := by
  simp only [login]
  rw [ht]
  constructor
  · intro tok he
    simp only [he]
    by_cases hc : g.client <;> simp [hc]
  · intro he
    simp only [he]
    by_cases hc : g.client <;> simp [hc]

/-! ## The authenticated requests each operation sends -/

/-- The GET for a write token that `get_write_token` sends once the auth
token `tok` is ensured. -/
def tokenRequest (g : GoogleReader) (tok : String) : Request :=
  { method := Method.get, url := pushSegs g.server_url ["reader", "api", "0", "token"],
    headers := [("Authorization", authHeaderValue tok)], form := none }

/-- The reading-list URL with its query, with or without a continuation. -/
def listUrl (g : GoogleReader) (continuation : Option String) : Url :=
  let url1 := (pushSegs g.server_url readingListSegs).setQuery (some fixedListQuery)
  match continuation with
  | some c => url1.setQuery (some ("c=" ++ c ++ "&" ++ (url1.query.getD "")))
  | none => url1

/-- The GET that `get_unread_items` sends once the auth token is ensured. -/
def listRequest (g : GoogleReader) (tok : String) (continuation : Option String) : Request :=
  { method := Method.get, url := listUrl g continuation,
    headers := [("Authorization", authHeaderValue tok)], form := none }

/-- The edit-tag POST that `mark_item_read` sends with write token `wt`. -/
def editRequest (g : GoogleReader) (tok wt item_id : String) : Request :=
  { method := Method.post, url := pushSegs g.server_url ["reader", "api", "0", "edit-tag"],
    headers := [("Authorization", authHeaderValue tok)],
    form := some [("a", "user/-/state/com.google/read"), ("T", wt), ("i", item_id)] }

/-- The GET that `unread_count` sends once the auth token is ensured. -/
def unreadRequest (g : GoogleReader) (tok : String) : Request :=
  { method := Method.get, url := pushSegs g.server_url ["reader", "api", "0", "unread-count"],
    headers := [("Authorization", authHeaderValue tok)], form := none }

/-- Preconditions under which an operation needs no login and cannot panic:
a cached auth token whose header value is well-formed, and a created client. -/
def authReady (g : GoogleReader) (tok : String) : Prop :=
  g.authtoken = some tok ∧ headerValueValid (authHeaderValue tok) = true ∧ g.client = true

/-! ## Operation evaluation under an ensured auth token -/

/-- With the auth token ensured, `get_write_token` sends exactly the token
GET and caches the newline-stripped body on success. -/
theorem get_write_token_eval (g : GoogleReader) (t : Transport) (tok : String)
    (h : authReady g tok) :
    get_write_token g t =
      match t (tokenRequest g tok) with
      | TResp.sendErr =>
        OpResult.done (Except.error ["Failed to get write token"]) g [tokenRequest g tok]
      | TResp.bodyErr =>
        OpResult.done (Except.error ["Failed to get write token response body"]) g
          [tokenRequest g tok]
      | TResp.ok body0 =>
        OpResult.done (Except.ok (stripNewline body0))
          { g with write_token := some (stripNewline body0) } [tokenRequest g tok] := by
  obtain ⟨hA, hV, hC⟩ := h
  cases ht : t (tokenRequest g tok) <;>
    simp only [tokenRequest] at ht <;>
    simp [get_write_token, hA, hV, hC, get_auth_headers, ht, tokenRequest]

/-- With the auth token ensured, `unread_count` sends exactly the
unread-count GET and parses the body as an unsigned integer. -/
theorem unread_count_eval (g : GoogleReader) (t : Transport) (tok : String)
    (h : authReady g tok) :
    unread_count g t =
      match t (unreadRequest g tok) with
      | TResp.sendErr =>
        OpResult.done (Except.error ["Failed to send unread-items request"]) g
          [unreadRequest g tok]
      | TResp.bodyErr =>
        OpResult.done (Except.error ["Failed to get unread count response body"]) g
          [unreadRequest g tok]
      | TResp.ok body =>
        match parseUsize body with
        | none =>
          OpResult.done (Except.error ["Failed to parse unread count response"]) g
            [unreadRequest g tok]
        | some n => OpResult.done (Except.ok n) g [unreadRequest g tok] := by
  obtain ⟨hA, hV, hC⟩ := h
  cases ht : t (unreadRequest g tok) <;>
    simp only [unreadRequest] at ht <;>
    simp [unread_count, hA, hV, hC, get_auth_headers, ht, unreadRequest]

/-- With the auth token ensured, `get_unread_items` sends exactly the
reading-list GET and decodes the body. -/
theorem get_unread_items_eval (jp : String → Option Response) (g : GoogleReader)
    (t : Transport) (tok : String) (continuation : Option String)
    (h : authReady g tok) :
    get_unread_items jp g t continuation =
      match t (listRequest g tok continuation) with
      | TResp.sendErr =>
        OpResult.done (Except.error ["Failed to send unread-items request"]) g
          [listRequest g tok continuation]
      | TResp.bodyErr =>
        OpResult.done (Except.error ["Failed to parse unread items response body"]) g
          [listRequest g tok continuation]
      | TResp.ok body =>
        match jp body with
        | none =>
          OpResult.done (Except.error ["Failed to parse unread items response body"]) g
            [listRequest g tok continuation]
        | some response =>
          OpResult.done (Except.ok response) g [listRequest g tok continuation] := by
  obtain ⟨hA, hV, hC⟩ := h
  cases ht : t (listRequest g tok continuation) <;>
    simp only [listRequest, listUrl] at ht <;>
    simp [get_unread_items, hA, hV, hC, get_auth_headers, ht, listRequest, listUrl]

/-- With the auth token ensured and a write token already cached,
`mark_item_read` sends exactly the edit-tag POST carrying the cached token. -/
theorem mark_item_read_eval_cached (g : GoogleReader) (t : Transport) (tok w item_id : String)
    (h : authReady g tok) (hW : g.write_token = some w) :
    mark_item_read g t item_id =
      match t (editRequest g tok w item_id) with
      | TResp.sendErr =>
        OpResult.done (Except.error ["Failed to get write token"]) g
          [editRequest g tok w item_id]
      | TResp.bodyErr =>
        OpResult.done (Except.error ["Failed to get write token response body"]) g
          [editRequest g tok w item_id]
      | TResp.ok body =>
        OpResult.done (Except.ok body) g [editRequest g tok w item_id] := by
  obtain ⟨hA, hV, hC⟩ := h
  cases ht : t (editRequest g tok w item_id) <;>
    simp only [editRequest] at ht <;>
    simp [mark_item_read, hA, hV, hC, hW, get_auth_headers, ht, editRequest]

/-- With the auth token ensured and no cached write token, `mark_item_read`
first fetches a write token, then sends the edit-tag POST carrying it. -/
theorem mark_item_read_eval_uncached (g : GoogleReader) (t : Transport) (tok item_id : String)
    (h : authReady g tok) (hW : g.write_token = none) :
    mark_item_read g t item_id =
      match t (tokenRequest g tok) with
      | TResp.sendErr =>
        OpResult.done (Except.error ["Failed to get write token", "Failed to get write token"])
          g [tokenRequest g tok]
      | TResp.bodyErr =>
        OpResult.done
          (Except.error ["Failed to get write token", "Failed to get write token response body"])
          g [tokenRequest g tok]
      | TResp.ok tb =>
        match t (editRequest g tok (stripNewline tb) item_id) with
        | TResp.sendErr =>
          OpResult.done (Except.error ["Failed to get write token"])
            { g with write_token := some (stripNewline tb) }
            [tokenRequest g tok, editRequest g tok (stripNewline tb) item_id]
        | TResp.bodyErr =>
          OpResult.done (Except.error ["Failed to get write token response body"])
            { g with write_token := some (stripNewline tb) }
            [tokenRequest g tok, editRequest g tok (stripNewline tb) item_id]
        | TResp.ok body =>
          OpResult.done (Except.ok body) { g with write_token := some (stripNewline tb) }
            [tokenRequest g tok, editRequest g tok (stripNewline tb) item_id] := by
  obtain ⟨hA, hV, hC⟩ := h
  have hwt := get_write_token_eval g t tok ⟨hA, hV, hC⟩
  cases ht : t (tokenRequest g tok) <;> rw [ht] at hwt <;>
    simp only [mark_item_read, hA, Option.isNone_some, Bool.false_eq_true, if_false, hW,
      hwt]
  case sendErr => simp
  case bodyErr => simp
  case ok tb =>
    cases hte : t (editRequest g tok (stripNewline tb) item_id) <;>
      simp only [editRequest] at hte <;>
      simp [hA, hV, hC, get_auth_headers, hte, editRequest]

/-! ## Which requests are logins: URL shape lemmas -/

/-- A request that performs the ClientLogin exchange: a POST whose URL path
ends in the `ClientLogin` segment (no other endpoint of this client does). -/
def isClientLoginReq (r : Request) : Bool :=
  decide (r.url.segments.getLast? = some "ClientLogin") && decide (r.method = Method.post)

theorem pushSegList_getLast (b : List String) (s : String) :
    (pushSegList b s).getLast? = some s := by
  unfold pushSegList
  split <;> simp

theorem getLast_pushSeg (u : Url) (s : String) :
    (u.pushSeg s).segments.getLast? = some s := by
  simp [Url.pushSeg, pushSegList_getLast]

theorem segments_setQuery (u : Url) (q : Option String) :
    (u.setQuery q).segments = u.segments := rfl

theorem isClientLoginReq_loginRequest (g : GoogleReader) :
    isClientLoginReq (loginRequest g) = true := by
  simp [isClientLoginReq, loginRequest, loginUrl, getLast_pushSeg]

theorem isClientLoginReq_tokenRequest (g : GoogleReader) (tok : String) :
    isClientLoginReq (tokenRequest g tok) = false := by
  simp [isClientLoginReq, tokenRequest, pushSegs, getLast_pushSeg]

theorem isClientLoginReq_unreadRequest (g : GoogleReader) (tok : String) :
    isClientLoginReq (unreadRequest g tok) = false := by
  simp [isClientLoginReq, unreadRequest, pushSegs, getLast_pushSeg]

theorem isClientLoginReq_editRequest (g : GoogleReader) (tok w item_id : String) :
    isClientLoginReq (editRequest g tok w item_id) = false := by
  simp [isClientLoginReq, editRequest, pushSegs, getLast_pushSeg]

theorem isClientLoginReq_listRequest (g : GoogleReader) (tok : String)
    (continuation : Option String) :
    isClientLoginReq (listRequest g tok continuation) = false := by
  cases continuation <;>
    simp [isClientLoginReq, listRequest, listUrl, segments_setQuery, readingListSegs,
      pushSegs, getLast_pushSeg]

/-! ## Trace lemmas: when a login happens -/

/-- A GET request is never the ClientLogin POST. -/
theorem isClientLoginReq_get (u : Url) (hs : List (String × String))
    (f : Option (List (String × String))) :
    isClientLoginReq { method := Method.get, url := u, headers := hs, form := f } = false := by
  simp [isClientLoginReq]

/-- With a cached auth token, `get_write_token` performs no login. -/
theorem gwt_trace_someauth (g : GoogleReader) (t : Transport) (tok : String)
    (hA : g.authtoken = some tok) :
    (get_write_token g t).trace.countP isClientLoginReq = 0 := by
  simp only [get_write_token, hA, Option.isNone_some, Bool.false_eq_true, if_false]
  cases hc : g.client
  · simp [OpResult.trace]
  · cases hh : get_auth_headers g with
    | none => simp [OpResult.trace]
    | some hs =>
      cases ht : t ⟨Method.get, pushSegs g.server_url ["reader", "api", "0", "token"], hs, none⟩ <;>
        simp [ht, OpResult.trace, List.countP_cons, isClientLoginReq_get]

/-- Without a cached auth token, the trace of `get_write_token` starts with
the login POST, which is its only login. -/
theorem gwt_trace_noauth (g : GoogleReader) (t : Transport)
    (hA : g.authtoken = none) :
    ∃ rest, (get_write_token g t).trace = loginRequest g :: rest ∧
      rest.countP isClientLoginReq = 0 := by
  simp only [get_write_token, hA, Option.isNone_none, if_true]
  obtain ⟨r, g1, hl⟩ := login_shape g t
  rw [hl]
  cases r with
  | error e => exact ⟨[], by simp [OpResult.trace], rfl⟩
  | ok u =>
    cases u
    cases hc : g1.client
    · exact ⟨[], by simp [hc, OpResult.trace], rfl⟩
    · cases hh : get_auth_headers g1 with
      | none => exact ⟨[], by simp [hc, hh, OpResult.trace], rfl⟩
      | some hs =>
        refine ⟨[⟨Method.get, pushSegs g1.server_url ["reader", "api", "0", "token"], hs, none⟩],
          ?_, ?_⟩
        · cases ht : t ⟨Method.get, pushSegs g1.server_url ["reader", "api", "0", "token"], hs,
              none⟩ <;>
            simp [hc, hh, ht, OpResult.trace]
        · simp [List.countP_cons, isClientLoginReq_get]

/-- A login failure inside `get_write_token` is returned as its own failure,
wrapped with the login context. -/
theorem gwt_noauth_loginfail (g : GoogleReader) (t : Transport) (e : Err)
    (g1 : GoogleReader) (tr : List Request) (hA : g.authtoken = none)
    (hl : login g t = OpResult.done (Except.error e) g1 tr) :
    get_write_token g t = OpResult.done (Except.error ("Failed to login" :: e)) g1 tr := by
  simp only [get_write_token, hA, Option.isNone_none, if_true, hl]

/-- A login failure inside `get_unread_items` is returned as its own failure,
wrapped with the login context. -/
theorem list_noauth_loginfail (jp : String → Option Response) (g : GoogleReader)
    (t : Transport) (continuation : Option String) (e : Err) (g1 : GoogleReader)
    (tr : List Request) (hA : g.authtoken = none)
    (hl : login g t = OpResult.done (Except.error e) g1 tr) :
    get_unread_items jp g t continuation =
      OpResult.done (Except.error ("Failed to login" :: e)) g1 tr := by
  simp only [get_unread_items, hA, Option.isNone_none, if_true, hl]

/-- A login failure inside `mark_item_read` is returned as its own failure,
wrapped with the login context. -/
theorem mark_noauth_loginfail (g : GoogleReader) (t : Transport) (item_id : String) (e : Err)
    (g1 : GoogleReader) (tr : List Request) (hA : g.authtoken = none)
    (hl : login g t = OpResult.done (Except.error e) g1 tr) :
    mark_item_read g t item_id =
      OpResult.done (Except.error ("Failed to login" :: e)) g1 tr := by
  simp only [mark_item_read, hA, Option.isNone_none, if_true, hl]

/-- A login failure inside `unread_count` is returned as its own failure,
wrapped with the login context. -/
theorem unread_noauth_loginfail (g : GoogleReader) (t : Transport) (e : Err)
    (g1 : GoogleReader) (tr : List Request) (hA : g.authtoken = none)
    (hl : login g t = OpResult.done (Except.error e) g1 tr) :
    unread_count g t = OpResult.done (Except.error ("Failed to login" :: e)) g1 tr := by
  simp only [unread_count, hA, Option.isNone_none, if_true, hl]

/-- With a cached auth token, `unread_count` performs no login. -/
theorem unread_trace_someauth (g : GoogleReader) (t : Transport) (tok : String)
    (hA : g.authtoken = some tok) :
    (unread_count g t).trace.countP isClientLoginReq = 0 := by
  simp only [unread_count, hA, Option.isNone_some, Bool.false_eq_true, if_false]
  cases hc : g.client
  · simp [OpResult.trace]
  · cases hh : get_auth_headers g with
    | none => simp [OpResult.trace]
    | some hs =>
      cases ht : t ⟨Method.get, pushSegs g.server_url ["reader", "api", "0", "unread-count"],
          hs, none⟩ <;>
        simp [ht, OpResult.trace, List.countP_cons, isClientLoginReq_get]
      case ok body =>
        cases hp : parseUsize body <;>
          simp [hp, OpResult.trace, List.countP_cons, isClientLoginReq_get]

/-- Without a cached auth token, the trace of `unread_count` starts with the
login POST, which is its only login. -/
theorem unread_trace_noauth (g : GoogleReader) (t : Transport)
    (hA : g.authtoken = none) :
    ∃ rest, (unread_count g t).trace = loginRequest g :: rest ∧
      rest.countP isClientLoginReq = 0 := by
  simp only [unread_count, hA, Option.isNone_none, if_true]
  obtain ⟨r, g1, hl⟩ := login_shape g t
  rw [hl]
  cases r with
  | error e => exact ⟨[], by simp [OpResult.trace], rfl⟩
  | ok u =>
    cases u
    cases hc : g1.client
    · exact ⟨[], by simp [hc, OpResult.trace], rfl⟩
    · cases hh : get_auth_headers g1 with
      | none => exact ⟨[], by simp [hc, hh, OpResult.trace], rfl⟩
      | some hs =>
        refine ⟨[⟨Method.get, pushSegs g1.server_url ["reader", "api", "0", "unread-count"],
          hs, none⟩], ?_, ?_⟩
        · cases ht : t ⟨Method.get,
              pushSegs g1.server_url ["reader", "api", "0", "unread-count"], hs, none⟩ <;>
            simp [hc, hh, ht, OpResult.trace]
          case ok body =>
            cases hp : parseUsize body <;> simp [hp, OpResult.trace]
        · simp [List.countP_cons, isClientLoginReq_get]

/-- With a cached auth token, `get_unread_items` performs no login. -/
theorem list_trace_someauth (jp : String → Option Response) (g : GoogleReader)
    (t : Transport) (continuation : Option String) (tok : String)
    (hA : g.authtoken = some tok) :
    (get_unread_items jp g t continuation).trace.countP isClientLoginReq = 0 := by
  simp only [get_unread_items, hA, Option.isNone_some, Bool.false_eq_true, if_false]
  cases hc : g.client
  · simp [OpResult.trace]
  · cases hh : get_auth_headers g with
    | none => simp [OpResult.trace]
    | some hs =>
      cases continuation with
      | none =>
        cases ht : t ⟨Method.get,
            (pushSegs g.server_url readingListSegs).setQuery (some fixedListQuery), hs,
            none⟩ <;>
          simp [ht, OpResult.trace, List.countP_cons, isClientLoginReq_get]
        case ok body =>
          cases hp : jp body <;>
            simp [hp, OpResult.trace, List.countP_cons, isClientLoginReq_get]
      | some c =>
        cases ht : t ⟨Method.get,
            ((pushSegs g.server_url readingListSegs).setQuery (some fixedListQuery)).setQuery
              (some ("c=" ++ c ++ "&" ++
                (((pushSegs g.server_url readingListSegs).setQuery
                  (some fixedListQuery)).query.getD ""))), hs, none⟩ <;>
          simp [ht, OpResult.trace, List.countP_cons, isClientLoginReq_get]
        case ok body =>
          cases hp : jp body <;>
            simp [hp, OpResult.trace, List.countP_cons, isClientLoginReq_get]

/-- Without a cached auth token, the trace of `get_unread_items` starts with
the login POST, which is its only login. -/
theorem list_trace_noauth (jp : String → Option Response) (g : GoogleReader)
    (t : Transport) (continuation : Option String) (hA : g.authtoken = none) :
    ∃ rest, (get_unread_items jp g t continuation).trace = loginRequest g :: rest ∧
      rest.countP isClientLoginReq = 0 := by
  simp only [get_unread_items, hA, Option.isNone_none, if_true]
  obtain ⟨r, g1, hl⟩ := login_shape g t
  rw [hl]
  cases r with
  | error e => exact ⟨[], by simp [OpResult.trace], rfl⟩
  | ok u =>
    cases u
    cases hc : g1.client
    · exact ⟨[], by simp [hc, OpResult.trace], rfl⟩
    · cases hh : get_auth_headers g1 with
      | none => exact ⟨[], by simp [hc, hh, OpResult.trace], rfl⟩
      | some hs =>
        cases continuation with
        | none =>
          refine ⟨[⟨Method.get,
            (pushSegs g1.server_url readingListSegs).setQuery (some fixedListQuery), hs,
            none⟩], ?_, ?_⟩
          · cases ht : t ⟨Method.get,
                (pushSegs g1.server_url readingListSegs).setQuery (some fixedListQuery), hs,
                none⟩ <;>
              simp [hc, hh, ht, OpResult.trace]
            case ok body =>
              cases hp : jp body <;> simp [hp, OpResult.trace]
          · simp [List.countP_cons, isClientLoginReq_get]
        | some c =>
          refine ⟨[⟨Method.get,
            ((pushSegs g1.server_url readingListSegs).setQuery (some fixedListQuery)).setQuery
              (some ("c=" ++ c ++ "&" ++
                (((pushSegs g1.server_url readingListSegs).setQuery
                  (some fixedListQuery)).query.getD ""))), hs, none⟩], ?_, ?_⟩
          · cases ht : t ⟨Method.get,
                ((pushSegs g1.server_url readingListSegs).setQuery
                  (some fixedListQuery)).setQuery
                  (some ("c=" ++ c ++ "&" ++
                    (((pushSegs g1.server_url readingListSegs).setQuery
                      (some fixedListQuery)).query.getD ""))), hs, none⟩ <;>
              simp [hc, hh, ht, OpResult.trace]
            case ok body =>
              cases hp : jp body <;> simp [hp, OpResult.trace]
          · simp [List.countP_cons, isClientLoginReq_get]

/-- The edit-tag POST is not the ClientLogin POST: its path ends elsewhere. -/
theorem isClientLoginReq_edit (u : Url) (hs : List (String × String))
    (f : Option (List (String × String))) :
    isClientLoginReq ⟨Method.post, pushSegs u ["reader", "api", "0", "edit-tag"], hs, f⟩
      = false := by
  simp [isClientLoginReq, pushSegs, getLast_pushSeg]

/-- With a cached auth token, `mark_item_read` performs no login, whether or
not a write token is cached. -/
theorem mark_trace_someauth (g : GoogleReader) (t : Transport) (item_id : String)
    (tok : String) (hA : g.authtoken = some tok) :
    (mark_item_read g t item_id).trace.countP isClientLoginReq = 0 := by
  simp only [mark_item_read, hA, Option.isNone_some, Bool.false_eq_true, if_false]
  cases hw : g.write_token with
  | some val =>
    cases hc : g.client
    · simp [hc, OpResult.trace]
    · cases hh : get_auth_headers g with
      | none => simp [hc, hh, OpResult.trace]
      | some hs =>
        cases ht : t ⟨Method.post, pushSegs g.server_url ["reader", "api", "0", "edit-tag"],
            hs, some [("a", "user/-/state/com.google/read"), ("T", val), ("i", item_id)]⟩ <;>
          simp [hc, hh, ht, OpResult.trace, List.countP_cons, isClientLoginReq_edit]
  | none =>
    have hcount := gwt_trace_someauth g t tok hA
    rcases hgw : get_write_token g t with ⟨g2, tr2⟩ | ⟨r2, g2, tr2⟩ <;>
      rw [hgw] at hcount <;> simp only [OpResult.trace] at hcount
    · simp [OpResult.trace, hcount]
    · cases r2 with
      | error e => simp [OpResult.trace, hcount]
      | ok wtv =>
        cases hc : g2.client
        · simp [hc, OpResult.trace, hcount]
        · cases hh : get_auth_headers g2 with
          | none => simp [hc, hh, OpResult.trace, hcount]
          | some hs =>
            cases ht : t ⟨Method.post,
                pushSegs g2.server_url ["reader", "api", "0", "edit-tag"], hs,
                some [("a", "user/-/state/com.google/read"), ("T", wtv), ("i", item_id)]⟩ <;>
              simp [hc, hh, ht, OpResult.trace, List.countP_append, List.countP_cons,
                isClientLoginReq_edit, hcount]

/-- Without a cached auth token, the trace of `mark_item_read` starts with the
login POST, which is its only login. -/
theorem mark_trace_noauth (g : GoogleReader) (t : Transport) (item_id : String)
    (hA : g.authtoken = none) :
    ∃ rest, (mark_item_read g t item_id).trace = loginRequest g :: rest ∧
      rest.countP isClientLoginReq = 0 := by
  simp only [mark_item_read, hA, Option.isNone_none, if_true]
  obtain ⟨r, g1, hl⟩ := login_shape g t
  rw [hl]
  cases r with
  | error e => exact ⟨[], by simp [OpResult.trace], rfl⟩
  | ok u =>
    cases u
    obtain ⟨body, tok1, -, -, hA1, -, -⟩ := login_ok_auth g t g1 _ hl
    cases hw : g1.write_token with
    | some val =>
      cases hc : g1.client
      · exact ⟨[], by simp [hw, hc, OpResult.trace], rfl⟩
      · cases hh : get_auth_headers g1 with
        | none => exact ⟨[], by simp [hw, hc, hh, OpResult.trace], rfl⟩
        | some hs =>
          refine ⟨[⟨Method.post, pushSegs g1.server_url ["reader", "api", "0", "edit-tag"],
            hs, some [("a", "user/-/state/com.google/read"), ("T", val), ("i", item_id)]⟩],
            ?_, ?_⟩
          · cases ht : t ⟨Method.post,
                pushSegs g1.server_url ["reader", "api", "0", "edit-tag"], hs,
                some [("a", "user/-/state/com.google/read"), ("T", val), ("i", item_id)]⟩ <;>
              simp [hw, hc, hh, ht, OpResult.trace]
          · simp [List.countP_cons, isClientLoginReq_edit]
    | none =>
      have hcount := gwt_trace_someauth g1 t tok1 hA1
      rcases hgw : get_write_token g1 t with ⟨g2, tr2⟩ | ⟨r2, g2, tr2⟩ <;>
        rw [hgw] at hcount <;> simp only [OpResult.trace] at hcount
      · exact ⟨tr2, by simp [hw, hgw, OpResult.trace], hcount⟩
      · cases r2 with
        | error e => exact ⟨tr2, by simp [hw, hgw, OpResult.trace], hcount⟩
        | ok wtv =>
          cases hc : g2.client
          · exact ⟨tr2, by simp [hw, hgw, hc, OpResult.trace], hcount⟩
          · cases hh : get_auth_headers g2 with
            | none => exact ⟨tr2, by simp [hw, hgw, hc, hh, OpResult.trace], hcount⟩
            | some hs =>
              refine ⟨tr2 ++ [⟨Method.post,
                pushSegs g2.server_url ["reader", "api", "0", "edit-tag"], hs,
                some [("a", "user/-/state/com.google/read"), ("T", wtv), ("i", item_id)]⟩],
                ?_, ?_⟩
              · cases ht : t ⟨Method.post,
                    pushSegs g2.server_url ["reader", "api", "0", "edit-tag"], hs,
                    some [("a", "user/-/state/com.google/read"), ("T", wtv),
                      ("i", item_id)]⟩ <;>
                  simp [hw, hgw, hc, hh, ht, OpResult.trace]
              · simp [List.countP_append, List.countP_cons, isClientLoginReq_edit, hcount]

/-! ## Frame lemmas: fields no operation ever writes -/

/-- Credentials and base URL survive `get_write_token`, on success, failure
and panic alike. -/
theorem gwt_frame (g : GoogleReader) (t : Transport) :
    (get_write_token g t).state.username = g.username ∧
    (get_write_token g t).state.password = g.password ∧
    (get_write_token g t).state.server_url = g.server_url := by
  simp only [get_write_token]
  cases hA : g.authtoken with
  | none =>
    simp only [Option.isNone_none, if_true]
    obtain ⟨r, g1, hl⟩ := login_shape g t
    have hst := login_state g t
    rw [hl] at hst
    simp only [OpResult.state] at hst
    rw [hl]
    obtain ⟨h1, h2, h3, -, -⟩ := hst
    cases r with
    | error e => simp [OpResult.state, h1, h2, h3]
    | ok u =>
      cases u
      cases hc : g1.client
      · simp [hc, OpResult.state, h1, h2, h3]
      · cases hh : get_auth_headers g1 with
        | none => simp [hc, hh, OpResult.state, h1, h2, h3]
        | some hs =>
          cases ht : t ⟨Method.get, pushSegs g1.server_url ["reader", "api", "0", "token"],
              hs, none⟩ <;>
            simp only [h3] at ht <;>
            simp [hc, hh, ht, OpResult.state, h1, h2, h3]
  | some tok =>
    simp only [Option.isNone_some, Bool.false_eq_true, if_false]
    cases hc : g.client
    · simp [hc, OpResult.state]
    · cases hh : get_auth_headers g with
      | none => simp [hc, hh, OpResult.state]
      | some hs =>
        cases ht : t ⟨Method.get, pushSegs g.server_url ["reader", "api", "0", "token"],
            hs, none⟩ <;>
          simp [hc, hh, ht, OpResult.state]

/-- Credentials and base URL survive `unread_count`. -/
theorem unread_frame (g : GoogleReader) (t : Transport) :
    (unread_count g t).state.username = g.username ∧
    (unread_count g t).state.password = g.password ∧
    (unread_count g t).state.server_url = g.server_url := by
  simp only [unread_count]
  cases hA : g.authtoken with
  | none =>
    simp only [Option.isNone_none, if_true]
    obtain ⟨r, g1, hl⟩ := login_shape g t
    have hst := login_state g t
    rw [hl] at hst
    simp only [OpResult.state] at hst
    rw [hl]
    obtain ⟨h1, h2, h3, -, -⟩ := hst
    cases r with
    | error e => simp [OpResult.state, h1, h2, h3]
    | ok u =>
      cases u
      cases hc : g1.client
      · simp [hc, OpResult.state, h1, h2, h3]
      · cases hh : get_auth_headers g1 with
        | none => simp [hc, hh, OpResult.state, h1, h2, h3]
        | some hs =>
          cases ht : t ⟨Method.get,
              pushSegs g1.server_url ["reader", "api", "0", "unread-count"], hs, none⟩ <;>
            simp only [h3] at ht <;>
            simp [hc, hh, ht, OpResult.state, h1, h2, h3]
          case ok body =>
            cases hp : parseUsize body <;> simp [hp, OpResult.state, h1, h2, h3]
  | some tok =>
    simp only [Option.isNone_some, Bool.false_eq_true, if_false]
    cases hc : g.client
    · simp [hc, OpResult.state]
    · cases hh : get_auth_headers g with
      | none => simp [hc, hh, OpResult.state]
      | some hs =>
        cases ht : t ⟨Method.get, pushSegs g.server_url ["reader", "api", "0", "unread-count"],
            hs, none⟩ <;>
          simp [hc, hh, ht, OpResult.state]
        case ok body =>
          cases hp : parseUsize body <;> simp [hp, OpResult.state]

/-- Credentials and base URL survive `get_unread_items`. -/
theorem list_frame (jp : String → Option Response) (g : GoogleReader) (t : Transport)
    (continuation : Option String) :
    (get_unread_items jp g t continuation).state.username = g.username ∧
    (get_unread_items jp g t continuation).state.password = g.password ∧
    (get_unread_items jp g t continuation).state.server_url = g.server_url := by
  simp only [get_unread_items]
  cases hA : g.authtoken with
  | none =>
    simp only [Option.isNone_none, if_true]
    obtain ⟨r, g1, hl⟩ := login_shape g t
    have hst := login_state g t
    rw [hl] at hst
    simp only [OpResult.state] at hst
    rw [hl]
    obtain ⟨h1, h2, h3, -, -⟩ := hst
    cases r with
    | error e => simp [OpResult.state, h1, h2, h3]
    | ok u =>
      cases u
      cases hc : g1.client
      · simp [hc, OpResult.state, h1, h2, h3]
      · cases hh : get_auth_headers g1 with
        | none => simp [hc, hh, OpResult.state, h1, h2, h3]
        | some hs =>
          cases continuation with
          | none =>
            cases ht : t ⟨Method.get,
                (pushSegs g1.server_url readingListSegs).setQuery (some fixedListQuery), hs,
                none⟩ <;>
              simp only [h3] at ht <;>
              simp [hc, hh, ht, OpResult.state, h1, h2, h3]
            case ok body =>
              cases hp : jp body <;> simp [hp, OpResult.state, h1, h2, h3]
          | some c =>
            cases ht : t ⟨Method.get,
                ((pushSegs g1.server_url readingListSegs).setQuery
                  (some fixedListQuery)).setQuery
                  (some ("c=" ++ c ++ "&" ++
                    (((pushSegs g1.server_url readingListSegs).setQuery
                      (some fixedListQuery)).query.getD ""))), hs, none⟩ <;>
              simp only [h3] at ht <;>
              simp [hc, hh, ht, OpResult.state, h1, h2, h3]
            case ok body =>
              cases hp : jp body <;> simp [hp, OpResult.state, h1, h2, h3]
  | some tok =>
    simp only [Option.isNone_some, Bool.false_eq_true, if_false]
    cases hc : g.client
    · simp [hc, OpResult.state]
    · cases hh : get_auth_headers g with
      | none => simp [hc, hh, OpResult.state]
      | some hs =>
        cases continuation with
        | none =>
          cases ht : t ⟨Method.get,
              (pushSegs g.server_url readingListSegs).setQuery (some fixedListQuery), hs,
              none⟩ <;>
            simp [hc, hh, ht, OpResult.state]
          case ok body =>
            cases hp : jp body <;> simp [hp, OpResult.state]
        | some c =>
          cases ht : t ⟨Method.get,
              ((pushSegs g.server_url readingListSegs).setQuery
                (some fixedListQuery)).setQuery
                (some ("c=" ++ c ++ "&" ++
                  (((pushSegs g.server_url readingListSegs).setQuery
                    (some fixedListQuery)).query.getD ""))), hs, none⟩ <;>
            simp [hc, hh, ht, OpResult.state]
          case ok body =>
            cases hp : jp body <;> simp [hp, OpResult.state]

/-- Credentials and base URL survive `mark_item_read`, including through the
nested write-token fetch. -/
theorem mark_frame (g : GoogleReader) (t : Transport) (item_id : String) :
    (mark_item_read g t item_id).state.username = g.username ∧
    (mark_item_read g t item_id).state.password = g.password ∧
    (mark_item_read g t item_id).state.server_url = g.server_url := by
  simp only [mark_item_read]
  cases hA : g.authtoken with
  | none =>
    simp only [Option.isNone_none, if_true]
    obtain ⟨r, g1, hl⟩ := login_shape g t
    have hst := login_state g t
    rw [hl] at hst
    simp only [OpResult.state] at hst
    rw [hl]
    obtain ⟨h1, h2, h3, -, -⟩ := hst
    cases r with
    | error e => simp [OpResult.state, h1, h2, h3]
    | ok u =>
      cases u
      cases hw : g1.write_token with
      | some val =>
        cases hc : g1.client
        · simp [hw, hc, OpResult.state, h1, h2, h3]
        · cases hh : get_auth_headers g1 with
          | none => simp [hw, hc, hh, OpResult.state, h1, h2, h3]
          | some hs =>
            cases ht : t ⟨Method.post,
                pushSegs g1.server_url ["reader", "api", "0", "edit-tag"], hs,
                some [("a", "user/-/state/com.google/read"), ("T", val),
                  ("i", item_id)]⟩ <;>
              simp only [h3] at ht <;>
              simp [hw, hc, hh, ht, OpResult.state, h1, h2, h3]
      | none =>
        have hfr := gwt_frame g1 t
        rcases hgw : get_write_token g1 t with ⟨g2, tr2⟩ | ⟨r2, g2, tr2⟩ <;>
          rw [hgw] at hfr <;> simp only [OpResult.state] at hfr <;>
          obtain ⟨f1, f2, f3⟩ := hfr
        · simp [hw, hgw, OpResult.state, f1, f2, f3, h1, h2, h3]
        · cases r2 with
          | error e => simp [hw, hgw, OpResult.state, f1, f2, f3, h1, h2, h3]
          | ok wtv =>
            cases hc : g2.client
            · simp [hw, hgw, hc, OpResult.state, f1, f2, f3, h1, h2, h3]
            · cases hh : get_auth_headers g2 with
              | none => simp [hw, hgw, hc, hh, OpResult.state, f1, f2, f3, h1, h2, h3]
              | some hs =>
                cases ht : t ⟨Method.post,
                    pushSegs g2.server_url ["reader", "api", "0", "edit-tag"], hs,
                    some [("a", "user/-/state/com.google/read"), ("T", wtv),
                      ("i", item_id)]⟩ <;>
                  simp only [f3, h3] at ht <;>
                  simp [hw, hgw, hc, hh, ht, OpResult.state, f1, f2, f3, h1, h2, h3]
  | some tok =>
    simp only [Option.isNone_some, Bool.false_eq_true, if_false]
    cases hw : g.write_token with
    | some val =>
      cases hc : g.client
      · simp [hw, hc, OpResult.state]
      · cases hh : get_auth_headers g with
        | none => simp [hw, hc, hh, OpResult.state]
        | some hs =>
          cases ht : t ⟨Method.post, pushSegs g.server_url ["reader", "api", "0", "edit-tag"],
              hs, some [("a", "user/-/state/com.google/read"), ("T", val),
                ("i", item_id)]⟩ <;>
            simp [hw, hc, hh, ht, OpResult.state]
    | none =>
      have hfr := gwt_frame g t
      rcases hgw : get_write_token g t with ⟨g2, tr2⟩ | ⟨r2, g2, tr2⟩ <;>
        rw [hgw] at hfr <;> simp only [OpResult.state] at hfr <;>
        obtain ⟨f1, f2, f3⟩ := hfr
      · simp [hw, hgw, OpResult.state, f1, f2, f3]
      · cases r2 with
        | error e => simp [hw, hgw, OpResult.state, f1, f2, f3]
        | ok wtv =>
          cases hc : g2.client
          · simp [hw, hgw, hc, OpResult.state, f1, f2, f3]
          · cases hh : get_auth_headers g2 with
            | none => simp [hw, hgw, hc, hh, OpResult.state, f1, f2, f3]
            | some hs =>
              cases ht : t ⟨Method.post,
                  pushSegs g2.server_url ["reader", "api", "0", "edit-tag"], hs,
                  some [("a", "user/-/state/com.google/read"), ("T", wtv),
                    ("i", item_id)]⟩ <;>
                simp only [f3] at ht <;>
                simp [hw, hgw, hc, hh, ht, OpResult.state, f1, f2, f3]

/-! ## Correctness of the `Auth=` scan against the regex reading -/

/-- The spec-level reading of the pattern: at position `i` the literal
`Auth=` occurs, followed by at least one non-whitespace character. -/
def authAt (l : List Char) (i : Nat) : Prop :=
  ∃ c rest, l.drop i = authLit ++ c :: rest ∧ rsIsSpace c = false

theorem takeNonSpace_not_space (l : List Char) :
    ∀ c ∈ takeNonSpace l, rsIsSpace c = false := by
  induction l with
  | nil => simp [takeNonSpace]
  | cons a as ih =>
    rw [takeNonSpace]
    by_cases hsp : rsIsSpace a
    · simp [hsp]
    · simp only [hsp, if_false]
      intro c hc
      rcases List.mem_cons.1 hc with h | h
      · subst h; simpa using hsp
      · exact ih c h

/-- `takeNonSpace` takes a maximal run: the remainder is empty or starts with
whitespace. -/
theorem takeNonSpace_split (l : List Char) :
    ∃ post, l = takeNonSpace l ++ post ∧
      (post = [] ∨ ∃ d post2, post = d :: post2 ∧ rsIsSpace d = true) := by
  induction l with
  | nil => exact ⟨[], rfl, Or.inl rfl⟩
  | cons a as ih =>
    rw [takeNonSpace]
    by_cases hsp : rsIsSpace a
    · exact ⟨a :: as, by simp [hsp], Or.inr ⟨a, as, rfl, hsp⟩⟩
    · obtain ⟨post, heq, hpost⟩ := ih
      exact ⟨post, by simpa [hsp] using congrArg (a :: ·) heq, hpost⟩

theorem startRun_some_iff (l tok : List Char) :
    startRun l = some tok ↔
      ∃ c rest, l = authLit ++ c :: rest ∧ rsIsSpace c = false ∧
        tok = c :: takeNonSpace rest := by
  have hlen : authLit.length = 5 := rfl
  unfold startRun
  constructor
  · intro h
    by_cases h5 : l.take 5 = authLit
    · rw [if_pos h5] at h
      cases hd : l.drop 5 with
      | nil => rw [hd] at h; cases h
      | cons c rest =>
        rw [hd] at h
        by_cases hsp : rsIsSpace c
        · simp [hsp] at h
        · simp only [hsp, if_false, Bool.false_eq_true] at h
          refine ⟨c, rest, ?_, by simpa using hsp, (Option.some_inj.1 h).symm⟩
          conv_lhs => rw [← List.take_append_drop 5 l]
          rw [h5, hd]
    · rw [if_neg h5] at h; cases h
  · rintro ⟨c, rest, hl, hsp, htok⟩
    subst hl
    have h5 : (authLit ++ c :: rest).take 5 = authLit := by
      rw [← hlen, List.take_left]
    have hd : (authLit ++ c :: rest).drop 5 = c :: rest := by
      rw [← hlen, List.drop_left]
    rw [if_pos h5, hd]
    simp [hsp, htok]

theorem findAuth_some (l tok : List Char) (h : findAuth l = some tok) :
    ∃ i c rest, l.drop i = authLit ++ c :: rest ∧ rsIsSpace c = false ∧
      tok = c :: takeNonSpace rest ∧ ∀ j, j < i → ¬ authAt l j := by
  induction l with
  | nil => cases h
  | cons a as ih =>
    rw [findAuth] at h
    cases hs : startRun (a :: as) with
    | some tk =>
      rw [hs] at h
      obtain ⟨c, rest, hl, hsp, htok⟩ := (startRun_some_iff _ _).1 hs
      refine ⟨0, c, rest, by simpa using hl, hsp, ?_, fun j hj => absurd hj (Nat.not_lt_zero j)⟩
      rw [← Option.some_inj.1 h, htok]
    | none =>
      rw [hs] at h
      obtain ⟨i, c, rest, hdrop, hsp, htok, hleft⟩ := ih h
      refine ⟨i + 1, c, rest, by simpa using hdrop, hsp, htok, ?_⟩
      intro j hj
      cases j with
      | zero =>
        rintro ⟨c', rest', hd0, hsp'⟩
        have : startRun (a :: as) = some (c' :: takeNonSpace rest') :=
          (startRun_some_iff _ _).2 ⟨c', rest', by simpa using hd0, hsp', rfl⟩
        rw [hs] at this; cases this
      | succ j' =>
        rintro ⟨c', rest', hdj, hsp'⟩
        exact hleft j' (Nat.lt_of_succ_lt_succ hj) ⟨c', rest', by simpa using hdj, hsp'⟩

theorem findAuth_none (l : List Char) (h : findAuth l = none) :
    ∀ i, ¬ authAt l i := by
  induction l with
  | nil =>
    rintro i ⟨c, rest, hd, -⟩
    have : ([] : List Char).drop i = [] := List.drop_nil
    rw [this] at hd
    cases hd
  | cons a as ih =>
    rw [findAuth] at h
    cases hs : startRun (a :: as) with
    | some tk => rw [hs] at h; cases h
    | none =>
      rw [hs] at h
      intro i
      cases i with
      | zero =>
        rintro ⟨c', rest', hd0, hsp'⟩
        have : startRun (a :: as) = some (c' :: takeNonSpace rest') :=
          (startRun_some_iff _ _).2 ⟨c', rest', by simpa using hd0, hsp', rfl⟩
        rw [hs] at this; cases this
      | succ j' =>
        rintro ⟨c', rest', hdj, hsp'⟩
        exact ih h j' ⟨c', rest', by simpa using hdj, hsp'⟩

/-- If `get_write_token` does not return success, the cached write token is
unchanged (also through a panic); the token is written only on the success
path. -/
theorem gwt_nonok_wt (g : GoogleReader) (t : Transport)
    (hne : ∀ body, (get_write_token g t).res ≠ some (Except.ok body)) :
    (get_write_token g t).state.write_token = g.write_token := by
  simp only [get_write_token] at hne ⊢
  cases hA : g.authtoken with
  | none =>
    simp only [hA, Option.isNone_none, if_true] at hne ⊢
    obtain ⟨r, g1, hl⟩ := login_shape g t
    have hst := login_state g t
    rw [hl] at hst
    simp only [OpResult.state] at hst
    obtain ⟨-, -, -, h4, -⟩ := hst
    rw [hl] at hne ⊢
    cases r with
    | error e => simp [OpResult.state, h4]
    | ok u =>
      cases u
      cases hc : g1.client
      · simp [hc, OpResult.state, h4]
      · cases hh : get_auth_headers g1 with
        | none => simp [hc, hh, OpResult.state, h4]
        | some hs =>
          cases ht : t ⟨Method.get, pushSegs g1.server_url ["reader", "api", "0", "token"],
              hs, none⟩
          case sendErr => simp [hc, hh, ht, OpResult.state, h4]
          case bodyErr => simp [hc, hh, ht, OpResult.state, h4]
          case ok body =>
            exfalso
            apply hne (stripNewline body)
            simp [hc, hh, ht, OpResult.res]
  | some tok =>
    simp only [hA, Option.isNone_some, Bool.false_eq_true, if_false] at hne ⊢
    cases hc : g.client
    · simp [hc, OpResult.state]
    · cases hh : get_auth_headers g with
      | none => simp [hc, hh, OpResult.state]
      | some hs =>
        cases ht : t ⟨Method.get, pushSegs g.server_url ["reader", "api", "0", "token"],
            hs, none⟩
        case sendErr => simp [hc, hh, ht, OpResult.state]
        case bodyErr => simp [hc, hh, ht, OpResult.state]
        case ok body =>
          exfalso
          apply hne (stripNewline body)
          simp [hc, hh, ht, OpResult.res]

/-! ## Concrete fixtures used by witnesses and counterexamples -/

/-- A session that already holds an auth token and a client. -/
def gAuthed : GoogleReader :=
  { username := "u", password := "p",
    server_url := ⟨"http", "x", ["greader"], none, none⟩,
    authtoken := some "abc123", write_token := none, client := true }

/-- A freshly constructed session: no tokens, no client. -/
def gFresh : GoogleReader :=
  { username := "u", password := "p",
    server_url := ⟨"http", "x", ["greader"], none, none⟩,
    authtoken := none, write_token := none, client := false }

/-- A transport that answers every endpoint of the protocol successfully. -/
def tOk : Transport := fun r =>
  match r.url.segments.getLast? with
  | some "ClientLogin" => TResp.ok "SID=s\nAuth=abc123\n"
  | some "token" => TResp.ok "wT123\n"
  | some "unread-count" => TResp.ok "42"
  | some "edit-tag" => TResp.ok "OK"
  | _ => TResp.ok "{}"

/-- A transport whose every send fails. -/
def tFail : Transport := fun _ => TResp.sendErr

/-- A JSON decoder that rejects every body (its value is irrelevant to the
request-shape claims it is used for). -/
def jpNone : String → Option Response := fun _ => none

/-- A transport answering every request with the non-numeric body `ERROR`. -/
def tError : Transport := fun _ => TResp.ok "ERROR"

/-! ## Claim theorems -/

/-- C5: `get_write_token` reads the response body as text, strips a single
trailing newline if one is present (and only one), caches the result as the
session's write token, and returns exactly the cached value. -/
theorem c5_write_token_newline (g : GoogleReader) (t : Transport) (tok body : String)
    (h : authReady g tok) (ht : t (tokenRequest g tok) = TResp.ok body) :
    get_write_token g t =
      OpResult.done (Except.ok (stripNewline body))
        { g with write_token := some (stripNewline body) } [tokenRequest g tok] ∧
    (∀ s, stripNewline (s ++ "\n") = s) ∧
    (∀ s, s.data.getLast? ≠ some '\n' → stripNewline s = s) := by
  refine ⟨?_, stripNewline_concat, stripNewline_of_no_newline⟩
  rw [get_write_token_eval g t tok h, ht]

/-- Witness for C5: a body of `wT123` plus newline yields cached and returned
token `wT123`. -/
theorem c5_witness :
    get_write_token gAuthed tOk =
      OpResult.done (Except.ok "wT123") { gAuthed with write_token := some "wT123" }
        [tokenRequest gAuthed "abc123"] ∧ stripNewline "wT123\n" = "wT123" := by
  have h := (c5_write_token_newline gAuthed tOk "abc123" "wT123\n" ⟨rfl, by decide, rfl⟩
    (by decide)).1
  refine ⟨?_, by decide⟩
  rw [h]
  decide

/-- C8: token caching is atomic with success: a failed `login` leaves the
cached auth token unchanged, and a failed `get_write_token` leaves the cached
write token unchanged. -/
theorem c8_atomic_token_caching (g : GoogleReader) (t : Transport) :
    (∀ e g1 tr, login g t = OpResult.done (Except.error e) g1 tr →
      g1.authtoken = g.authtoken) ∧
    (∀ e g1 tr, get_write_token g t = OpResult.done (Except.error e) g1 tr →
      g1.write_token = g.write_token) := by
  constructor
  · intro e g1 tr h
    exact (login_error_auth g t e g1 tr h).1
  · intro e g1 tr h
    have hne : ∀ body, (get_write_token g t).res ≠ some (Except.ok body) := by
      intro body hb
      rw [h] at hb
      simp [OpResult.res] at hb
    have hw := gwt_nonok_wt g t hne
    rw [h] at hw
    simpa [OpResult.state] using hw

/-- Witness for C8: a transport failure during login and during the write
token fetch leaves the respective cached token untouched. -/
theorem c8_witness :
    login gFresh tFail = OpResult.done (Except.error ["Failed to send login request"])
      { gFresh with client := true } [loginRequest gFresh] ∧
    ({ gFresh with client := true } : GoogleReader).authtoken = gFresh.authtoken ∧
    get_write_token gAuthed tFail =
      OpResult.done (Except.error ["Failed to get write token"]) gAuthed
        [tokenRequest gAuthed "abc123"] ∧
    gAuthed.write_token = gAuthed.write_token := by
  refine ⟨by decide, ?_, by decide, ?_⟩
  · exact (c8_atomic_token_caching gFresh tFail).1 ["Failed to send login request"]
      { gFresh with client := true } [loginRequest gFresh] (by decide)
  · exact (c8_atomic_token_caching gAuthed tFail).2 ["Failed to get write token"]
      gAuthed [tokenRequest gAuthed "abc123"] (by decide)

/-- C9: `unread_count` parses the whole body as one unsigned integer and
returns it; any body that is not unsigned-integer text (such as `ERROR`)
yields the parse-error failure, never a panic and never a default value. -/
theorem c9_unread_count_parse (g : GoogleReader) (t : Transport) (tok body : String)
    (h : authReady g tok) (ht : t (unreadRequest g tok) = TResp.ok body) :
    (∀ n, parseUsize body = some n →
      unread_count g t = OpResult.done (Except.ok n) g [unreadRequest g tok]) ∧
    (parseUsize body = none →
      unread_count g t =
        OpResult.done (Except.error ["Failed to parse unread count response"]) g
          [unreadRequest g tok]) ∧
    parseUsize "ERROR" = none := by
  rw [unread_count_eval g t tok h, ht]
  refine ⟨?_, ?_, by decide⟩
  · intro n hp
    simp [hp]
  · intro hp
    simp [hp]

/-- Witness for C9: against a server answering `ERROR`, `unread_count` fails
with the parse-error context. -/
theorem c9_witness :
    unread_count gAuthed tError =
      OpResult.done (Except.error ["Failed to parse unread count response"]) gAuthed
        [unreadRequest gAuthed "abc123"] ∧ parseUsize "ERROR" = none := by
  refine ⟨?_, by decide⟩
  exact (c9_unread_count_parse gAuthed tError "abc123" "ERROR" ⟨rfl, by decide, rfl⟩
    (by decide)).2.1 (by decide)

/-- C10: every operation leaves `username`, `password` and `server_url`
unchanged, whether it succeeds, fails or panics; only the cached tokens and
the lazily created client are ever written. -/
theorem c10_frame_effect (jp : String → Option Response) (g : GoogleReader) (t : Transport)
    (continuation : Option String) (item_id : String) :
    ((login g t).state.username = g.username ∧
      (login g t).state.password = g.password ∧
      (login g t).state.server_url = g.server_url) ∧
    ((get_write_token g t).state.username = g.username ∧
      (get_write_token g t).state.password = g.password ∧
      (get_write_token g t).state.server_url = g.server_url) ∧
    ((get_unread_items jp g t continuation).state.username = g.username ∧
      (get_unread_items jp g t continuation).state.password = g.password ∧
      (get_unread_items jp g t continuation).state.server_url = g.server_url) ∧
    ((mark_item_read g t item_id).state.username = g.username ∧
      (mark_item_read g t item_id).state.password = g.password ∧
      (mark_item_read g t item_id).state.server_url = g.server_url) ∧
    ((unread_count g t).state.username = g.username ∧
      (unread_count g t).state.password = g.password ∧
      (unread_count g t).state.server_url = g.server_url) := by
  have h := login_state g t
  exact ⟨⟨h.1, h.2.1, h.2.2.1⟩, gwt_frame g t, list_frame jp g t continuation,
    mark_frame g t item_id, unread_frame g t⟩

/-- C2: `login` extracts the token as the first whitespace-delimited run
after the literal `Auth=` (whitespace per the regex crate's Unicode `\s`,
so e.g. a no-break space U+00A0 blocks or delimits a match) and caches
exactly that run; for the body `SID=xxx`/newline/`Auth=abc123`/newline the
token is `abc123`; with no such occurrence, `login` fails with the
token-not-found (parse) error. -/
theorem c2_login_token_extraction :
    extractAuth "SID=xxx\nAuth=abc123\n" = some "abc123" ∧
    extractAuth "Auth=\u00A0x" = none ∧
    extractAuth "Auth=a\u00A0b" = some "a" ∧
    (∀ body tokS, extractAuth body = some tokS →
      tokS.data ≠ [] ∧ (∀ ch ∈ tokS.data, rsIsSpace ch = false) ∧
      ∃ i post, body.data.drop i = authLit ++ tokS.data ++ post ∧
        (post = [] ∨ ∃ d post2, post = d :: post2 ∧ rsIsSpace d = true) ∧
        authAt body.data i ∧ (∀ j, j < i → ¬ authAt body.data j)) ∧
    (∀ body, (∀ i, ¬ authAt body.data i) → extractAuth body = none) ∧
    (∀ (g : GoogleReader) (t : Transport) body,
      t (loginRequest g) = TResp.ok body →
      (∀ tokS, extractAuth body = some tokS →
        ∃ g1, login g t = OpResult.done (Except.ok ()) g1 [loginRequest g] ∧
          g1.authtoken = some tokS) ∧
      (extractAuth body = none →
        ∃ g1, login g t =
            OpResult.done (Except.error ["Failed to parse login response"]) g1
              [loginRequest g] ∧
          g1.authtoken = g.authtoken)) := by
  refine ⟨by decide, by decide, by decide, ?_, ?_, ?_⟩
  · intro body tokS h
    simp only [extractAuth, Option.map_eq_some'] at h
    obtain ⟨tok, hf, htokS⟩ := h
    obtain ⟨i, c, rest, hdrop, hsp, htok, hleft⟩ := findAuth_some body.data tok hf
    obtain ⟨post, hrest, hpost⟩ := takeNonSpace_split rest
    have hdata : tokS.data = tok := by rw [← htokS, asString_data]
    refine ⟨by simp [hdata, htok], ?_, i, post, ?_, hpost, ⟨c, rest, hdrop, hsp⟩, hleft⟩
    · intro ch hch
      rw [hdata, htok] at hch
      rcases List.mem_cons.1 hch with h | h
      · subst h; exact hsp
      · exact takeNonSpace_not_space rest ch h
    · rw [hdata, htok, hdrop]
      conv_lhs => rw [hrest]
      simp
  · intro body hno
    cases hf : findAuth body.data with
    | none => simp [extractAuth, hf]
    | some tok =>
      exfalso
      obtain ⟨i, c, rest, hdrop, hsp, -, -⟩ := findAuth_some body.data tok hf
      exact hno i ⟨c, rest, hdrop, hsp⟩
  · intro g t body ht
    exact login_of_body g t body ht

/-- Witness for C2: on the example body the extracted and cached token is
exactly `abc123`, placed after the unique `Auth=` occurrence. -/
theorem c2_witness :
    (("abc123" : String).data ≠ [] ∧
      (∀ ch ∈ ("abc123" : String).data, rsIsSpace ch = false) ∧
      ∃ i post, ("SID=xxx\nAuth=abc123\n" : String).data.drop i =
          authLit ++ ("abc123" : String).data ++ post ∧
        (post = [] ∨ ∃ d post2, post = d :: post2 ∧ rsIsSpace d = true) ∧
        authAt ("SID=xxx\nAuth=abc123\n" : String).data i ∧
        (∀ j, j < i → ¬ authAt ("SID=xxx\nAuth=abc123\n" : String).data j)) ∧
    (∃ g1, login gFresh tOk = OpResult.done (Except.ok ()) g1 [loginRequest gFresh] ∧
      g1.authtoken = some "abc123") := by
  constructor
  · exact c2_login_token_extraction.2.2.2.1 "SID=xxx\nAuth=abc123\n" "abc123" (by decide)
  · exact (c2_login_token_extraction.2.2.2.2.2 gFresh tOk "SID=s\nAuth=abc123\n"
      (by decide)).1 "abc123" (by decide)

/-- C1: any authenticated operation on a session with no auth token performs
exactly one login, as its first request, and propagates a login failure as
its own failure wrapped with the login context; with a token cached, no login
is performed. -/
theorem c1_lazy_login (jp : String → Option Response) (g : GoogleReader) (t : Transport)
    (continuation : Option String) (item_id : String) :
    (g.authtoken = none →
      ((get_write_token g t).trace.head? = some (loginRequest g) ∧
        (get_write_token g t).trace.countP isClientLoginReq = 1) ∧
      ((get_unread_items jp g t continuation).trace.head? = some (loginRequest g) ∧
        (get_unread_items jp g t continuation).trace.countP isClientLoginReq = 1) ∧
      ((mark_item_read g t item_id).trace.head? = some (loginRequest g) ∧
        (mark_item_read g t item_id).trace.countP isClientLoginReq = 1) ∧
      ((unread_count g t).trace.head? = some (loginRequest g) ∧
        (unread_count g t).trace.countP isClientLoginReq = 1) ∧
      (∀ e g1 tr, login g t = OpResult.done (Except.error e) g1 tr →
        get_write_token g t =
          OpResult.done (Except.error ("Failed to login" :: e)) g1 tr ∧
        get_unread_items jp g t continuation =
          OpResult.done (Except.error ("Failed to login" :: e)) g1 tr ∧
        mark_item_read g t item_id =
          OpResult.done (Except.error ("Failed to login" :: e)) g1 tr ∧
        unread_count g t =
          OpResult.done (Except.error ("Failed to login" :: e)) g1 tr)) ∧
    (∀ tok, g.authtoken = some tok →
      (get_write_token g t).trace.countP isClientLoginReq = 0 ∧
      (get_unread_items jp g t continuation).trace.countP isClientLoginReq = 0 ∧
      (mark_item_read g t item_id).trace.countP isClientLoginReq = 0 ∧
      (unread_count g t).trace.countP isClientLoginReq = 0) := by
  constructor
  · intro hA
    obtain ⟨r1, ht1, hc1⟩ := gwt_trace_noauth g t hA
    obtain ⟨r2, ht2, hc2⟩ := list_trace_noauth jp g t continuation hA
    obtain ⟨r3, ht3, hc3⟩ := mark_trace_noauth g t item_id hA
    obtain ⟨r4, ht4, hc4⟩ := unread_trace_noauth g t hA
    refine ⟨⟨by simp [ht1], ?_⟩, ⟨by simp [ht2], ?_⟩, ⟨by simp [ht3], ?_⟩,
      ⟨by simp [ht4], ?_⟩, ?_⟩
    · simp [ht1, List.countP_cons, isClientLoginReq_loginRequest, hc1]
    · simp [ht2, List.countP_cons, isClientLoginReq_loginRequest, hc2]
    · simp [ht3, List.countP_cons, isClientLoginReq_loginRequest, hc3]
    · simp [ht4, List.countP_cons, isClientLoginReq_loginRequest, hc4]
    · intro e g1 tr hl
      exact ⟨gwt_noauth_loginfail g t e g1 tr hA hl,
        list_noauth_loginfail jp g t continuation e g1 tr hA hl,
        mark_noauth_loginfail g t item_id e g1 tr hA hl,
        unread_noauth_loginfail g t e g1 tr hA hl⟩
  · intro tok hA
    exact ⟨gwt_trace_someauth g t tok hA,
      list_trace_someauth jp g t continuation tok hA,
      mark_trace_someauth g t item_id tok hA,
      unread_trace_someauth g t tok hA⟩

/-- Witness for C1: on a fresh session the first request is the login POST
and it is the only one; on an authenticated session no login happens; a
transport failure of the login surfaces as the wrapped operation failure. -/
theorem c1_witness :
    (get_write_token gFresh tOk).trace.head? = some (loginRequest gFresh) ∧
    (get_write_token gFresh tOk).trace.countP isClientLoginReq = 1 ∧
    (unread_count gAuthed tOk).trace.countP isClientLoginReq = 0 ∧
    get_write_token gFresh tFail =
      OpResult.done (Except.error ["Failed to login", "Failed to send login request"])
        { gFresh with client := true } [loginRequest gFresh] := by
  refine ⟨?_, ?_, ?_, ?_⟩
  · exact ((c1_lazy_login jpNone gFresh tOk none "i").1 rfl).1.1
  · exact ((c1_lazy_login jpNone gFresh tOk none "i").1 rfl).1.2
  · exact ((c1_lazy_login jpNone gAuthed tOk none "i").2 "abc123" rfl).2.2.2
  · exact (((c1_lazy_login jpNone gFresh tFail none "i").1 rfl).2.2.2.2
      ["Failed to send login request"] { gFresh with client := true } [loginRequest gFresh]
      (by decide)).1

/-- C6: `mark_item_read` uses the cached write token when present (sending it
unchanged in the `T` form field, fetching nothing, and leaving the cache as
is), and fetches a write token only when none is cached, caching it for
subsequent calls. -/
theorem c6_write_token_reuse (g : GoogleReader) (t : Transport) (item_id tok w : String)
    (h : authReady g tok) :
    (g.write_token = some w →
      (mark_item_read g t item_id).trace = [editRequest g tok w item_id] ∧
      (editRequest g tok w item_id).form =
        some [("a", "user/-/state/com.google/read"), ("T", w), ("i", item_id)] ∧
      (∀ r ∈ (mark_item_read g t item_id).trace,
        r.url.segments.getLast? ≠ some "token") ∧
      (mark_item_read g t item_id).state.write_token = some w) ∧
    (g.write_token = none → ∀ tb, t (tokenRequest g tok) = TResp.ok tb →
      (mark_item_read g t item_id).trace =
        [tokenRequest g tok, editRequest g tok (stripNewline tb) item_id] ∧
      (mark_item_read g t item_id).state.write_token = some (stripNewline tb)) := by
  constructor
  · intro hW
    rw [mark_item_read_eval_cached g t tok w item_id h hW]
    cases ht : t (editRequest g tok w item_id) <;>
      simp [hW, OpResult.trace, OpResult.state, editRequest, pushSegs, getLast_pushSeg]
  · intro hW tb htb
    rw [mark_item_read_eval_uncached g t tok item_id h hW, htb]
    cases ht : t (editRequest g tok (stripNewline tb) item_id) <;>
      simp [ht, OpResult.trace, OpResult.state]

/-- Witness for C6: with write token `W` cached, the edit POST carries `T=W`,
the token endpoint is never hit, and the cache still holds `W`; on a fresh
cache the token fetched once is the one sent. -/
theorem c6_witness :
    (mark_item_read { gAuthed with write_token := some "W" } tOk "item1").trace =
      [editRequest { gAuthed with write_token := some "W" } "abc123" "W" "item1"] ∧
    (editRequest { gAuthed with write_token := some "W" } "abc123" "W" "item1").form =
      some [("a", "user/-/state/com.google/read"), ("T", "W"), ("i", "item1")] ∧
    (mark_item_read { gAuthed with write_token := some "W" } tOk "item1").state.write_token
      = some "W" ∧
    (mark_item_read gAuthed tOk "item1").trace =
      [tokenRequest gAuthed "abc123",
        editRequest gAuthed "abc123" (stripNewline "wT123\n") "item1"] := by
  have h1 := (c6_write_token_reuse { gAuthed with write_token := some "W" } tOk "item1"
    "abc123" "W" ⟨rfl, by decide, rfl⟩).1 rfl
  have h2 := (c6_write_token_reuse gAuthed tOk "item1" "abc123" "W"
    ⟨rfl, by decide, rfl⟩).2 rfl "wT123\n" (by decide)
  exact ⟨h1.1, h1.2.1, h1.2.2.2, h2.1⟩

/-- A transport whose login body carries a token made of the control
character 0x01 (matched by the regex `\S+` but rejected by `HeaderValue`). -/
def tCtl : Transport := fun _ => TResp.ok "Auth=\x01"

/-- Counterexample for C7: `login` can succeed and cache the token `\x01`,
after which `get_auth_headers` panics (the `HeaderValue` parse unwrap fails)
even though the ensure-auth precondition held. -/
theorem c7_counterexample :
    (login gFresh tCtl).res = some (Except.ok ()) ∧
    (login gFresh tCtl).state.authtoken = some "\x01" ∧
    get_auth_headers ((login gFresh tCtl).state) = none := by decide

/-- C7 (amended): with a cached auth token whose header value is well formed,
`get_auth_headers` is exactly the single `Authorization: GoogleLogin
auth={token}` header and neither unwrap fails; every request an operation
then sends carries exactly that header; and a token extracted by `login` is
never empty.  (As stated the claim fails: a successful login can cache a
token containing an ASCII control character, on which the `HeaderValue`
parse unwrap panics — see the counterexample.) -/
theorem c7_auth_header (jp : String → Option Response) (g : GoogleReader) (t : Transport)
    (tok item_id : String) (continuation : Option String) (h : authReady g tok) :
    get_auth_headers g = some [("Authorization", "GoogleLogin auth=" ++ tok)] ∧
    (∀ r ∈ (get_write_token g t).trace,
      r.headers = [("Authorization", authHeaderValue tok)]) ∧
    (∀ r ∈ (get_unread_items jp g t continuation).trace,
      r.headers = [("Authorization", authHeaderValue tok)]) ∧
    (∀ r ∈ (mark_item_read g t item_id).trace,
      r.headers = [("Authorization", authHeaderValue tok)]) ∧
    (∀ r ∈ (unread_count g t).trace,
      r.headers = [("Authorization", authHeaderValue tok)]) ∧
    (∀ body tokS, extractAuth body = some tokS → tokS ≠ "") := by
  obtain ⟨hA, hV, hC⟩ := h
  have hV' : headerValueValid ("GoogleLogin auth=" ++ tok) = true := hV
  refine ⟨by simp [get_auth_headers, hA, authHeaderValue, hV'], ?_, ?_, ?_, ?_, ?_⟩
  · rw [get_write_token_eval g t tok ⟨hA, hV, hC⟩]
    cases ht : t (tokenRequest g tok) <;>
      simp [OpResult.trace, tokenRequest]
  · rw [get_unread_items_eval jp g t tok continuation ⟨hA, hV, hC⟩]
    cases ht : t (listRequest g tok continuation) <;>
      simp [OpResult.trace, listRequest]
    case ok body => cases hp : jp body <;> simp [hp, OpResult.trace, listRequest]
  · cases hw : g.write_token with
    | some w =>
      rw [mark_item_read_eval_cached g t tok w item_id ⟨hA, hV, hC⟩ hw]
      cases ht : t (editRequest g tok w item_id) <;>
        simp [OpResult.trace, editRequest]
    | none =>
      rw [mark_item_read_eval_uncached g t tok item_id ⟨hA, hV, hC⟩ hw]
      cases ht : t (tokenRequest g tok) <;>
        simp [OpResult.trace, tokenRequest]
      case ok tb =>
        cases hte : t (editRequest g tok (stripNewline tb) item_id) <;>
          simp [hte, OpResult.trace, tokenRequest, editRequest]
  · rw [unread_count_eval g t tok ⟨hA, hV, hC⟩]
    cases ht : t (unreadRequest g tok) <;>
      simp [OpResult.trace, unreadRequest]
    case ok body => cases hp : parseUsize body <;> simp [hp, OpResult.trace, unreadRequest]
  · intro body tokS hx
    simp only [extractAuth, Option.map_eq_some'] at hx
    obtain ⟨tk, hf, htokS⟩ := hx
    obtain ⟨i, c, rest, -, -, htok, -⟩ := findAuth_some body.data tk hf
    intro hempty
    have : tokS.data = tk := by rw [← htokS, asString_data]
    rw [hempty] at this
    rw [htok] at this
    cases this

/-- Witness for C7: on the authenticated fixture the header map is exactly
the one `Authorization` entry, and the token GET carries it. -/
theorem c7_witness :
    get_auth_headers gAuthed = some [("Authorization", "GoogleLogin auth=" ++ "abc123")] ∧
    (∀ r ∈ (get_write_token gAuthed tOk).trace,
      r.headers = [("Authorization", authHeaderValue "abc123")]) := by
  have h := c7_auth_header jpNone gAuthed tOk "abc123" "item1" none ⟨rfl, by decide, rfl⟩
  exact ⟨h.1, h.2.1⟩

/-! ## Query encoding and path shape lemmas for the reading-list request -/

theorem asString_append (a b : List Char) :
    (a ++ b).asString = a.asString ++ b.asString := rfl

/-- `set_query` encoding distributes over concatenation. -/
theorem encodeQuery_append (a b : String) :
    encodeQuery (a ++ b) = encodeQuery a ++ encodeQuery b := by
  simp only [encodeQuery, String.data_append, List.map_append, List.flatten_append]
  exact asString_append _ _

/-- Strings of query-safe characters are left unescaped by `set_query`. -/
theorem encodeQuery_eq_self (s : String) (h : ∀ ch ∈ s.data, querySafe ch = true) :
    encodeQuery s = s := by
  apply String.ext
  rw [encodeQuery, asString_data]
  have : ∀ l : List Char, (∀ ch ∈ l, querySafe ch = true) →
      (l.map encodeQueryChar).flatten = l := by
    intro l hl
    induction l with
    | nil => rfl
    | cons a as ih =>
      have ha : querySafe a = true := hl a (List.mem_cons_self a as)
      simp only [List.map_cons, List.flatten_cons, encodeQueryChar, ha, if_true]
      rw [ih (fun ch hch => hl ch (List.mem_cons_of_mem a hch))]
      rfl
  exact this s.data h

theorem pushSegList_of_ne (b : List String) (s : String) (hb1 : b ≠ []) (hb2 : b ≠ [""]) :
    pushSegList b s = b ++ [s] := by
  unfold pushSegList
  split <;> simp_all

theorem foldl_pushSegList_of_ne (segs b : List String) (hb1 : b ≠ []) (hb2 : b ≠ [""]) :
    List.foldl pushSegList b segs = b ++ segs := by
  induction segs generalizing b with
  | nil => simp
  | cons s rest ih =>
    rw [List.foldl_cons, pushSegList_of_ne b s hb1 hb2]
    have h1 : b ++ [s] ≠ [] := by simp
    have h2 : b ++ [s] ≠ [""] := by
      intro hcontra
      rcases b with _ | ⟨x, xs⟩
      · exact hb1 rfl
      · simp at hcontra
    rw [ih (b ++ [s]) h1 h2, List.append_assoc]
    rfl

theorem pushSegs_cons (u : Url) (s : String) (rest : List String) :
    pushSegs u (s :: rest) = pushSegs (u.pushSeg s) rest := rfl

theorem pushSegs_segments (u : Url) (segs : List String) :
    (pushSegs u segs).segments = List.foldl pushSegList u.segments segs := by
  induction segs generalizing u with
  | nil => rfl
  | cons s rest ih =>
    rw [pushSegs_cons, ih (u.pushSeg s), List.foldl_cons]
    rfl

/-- Pushing a nonempty chain of segments appends it to the base path; a root
(or empty) base path contributes nothing. -/
theorem pushSegs_shape (u : Url) (s : String) (rest : List String) (hs : s ≠ "") :
    (pushSegs u (s :: rest)).segments =
      (if u.segments = [] ∨ u.segments = [""] then [] else u.segments) ++ s :: rest := by
  rw [pushSegs_segments, List.foldl_cons]
  by_cases h : u.segments = [] ∨ u.segments = [""]
  · rw [if_pos h]
    have hps : pushSegList u.segments s = [s] := by
      rcases h with h | h <;> rw [h] <;> rfl
    rw [hps]
    have h2 : [s] ≠ [""] := by
      intro hc
      exact hs (List.cons_eq_cons.1 hc).1
    rw [foldl_pushSegList_of_ne rest [s] (by simp) h2]
    rfl
  · rw [if_neg h]
    push_neg at h
    exact foldl_pushSegList_of_ne (s :: rest) u.segments h.1 h.2

/-- The two query strings the reading-list URL can carry. -/
theorem listUrl_query (g : GoogleReader) :
    (listUrl g none).query = some "r=n&xt=user/-/state/com.google/read" ∧
    ∀ cv, (listUrl g (some cv)).query =
      some ("c=" ++ encodeQuery cv ++ "&r=n&xt=user/-/state/com.google/read") := by
  have hfixed : encodeQuery fixedListQuery = fixedListQuery := by decide
  constructor
  · simp [listUrl, Url.setQuery, hfixed]
    rfl
  · intro cv
    simp only [listUrl, Url.setQuery, Option.map_some', Option.getD_some, hfixed]
    rw [Option.some_inj]
    rw [encodeQuery_append, encodeQuery_append, encodeQuery_append]
    rw [hfixed]
    have h1 : encodeQuery "c=" = "c=" := by decide
    have h2 : encodeQuery "&" = "&" := by decide
    rw [h1, h2]
    rw [String.append_assoc, String.append_assoc]
    rfl

/-- Counterexample for C3: a continuation cursor containing a space is
percent-encoded by `set_query`, so the query string is not literally
`c={c}&...` for every supplied cursor. -/
theorem c3_counterexample :
    (get_unread_items jpNone gAuthed tOk (some " ")).trace.map (fun r => r.url.query) =
      [some "c=%20&r=n&xt=user/-/state/com.google/read"] ∧
    ("c=%20&r=n&xt=user/-/state/com.google/read" : String) ≠
      "c= &r=n&xt=user/-/state/com.google/read" := by decide

/-- C3 (amended): `get_unread_items` sends a single GET whose path appends
the ten reading-list segments (reader, api, 0, stream, contents, user, dash,
state, com.google, reading-list) to the base path; without a cursor its query
is exactly the fixed `r=n&xt=...read` string, and with cursor `c` it is
exactly `c={e}&` followed by the fixed string, where `e` is the
percent-encoding of `c` — equal to `c` itself whenever the cursor contains
only query-safe characters.  (As stated the claim fails for cursors needing
encoding — see the counterexample.) -/
theorem c3_list_request (jp : String → Option Response) (g : GoogleReader) (t : Transport)
    (tok : String) (continuation : Option String) (h : authReady g tok) :
    (get_unread_items jp g t continuation).trace = [listRequest g tok continuation] ∧
    (listRequest g tok continuation).method = Method.get ∧
    (listRequest g tok continuation).form = none ∧
    (∃ pre, (listRequest g tok continuation).url.segments =
      pre ++ ["reader", "api", "0", "stream", "contents", "user", "-", "state",
        "com.google", "reading-list"] ∧
      (pre = g.server_url.segments ∨ pre = [])) ∧
    (listRequest g tok none).url.query = some "r=n&xt=user/-/state/com.google/read" ∧
    (∀ cv, (listRequest g tok (some cv)).url.query =
      some ("c=" ++ encodeQuery cv ++ "&r=n&xt=user/-/state/com.google/read")) ∧
    (∀ cv : String, (∀ ch ∈ cv.data, querySafe ch = true) → encodeQuery cv = cv) := by
  refine ⟨?_, rfl, rfl, ?_, (listUrl_query g).1, (listUrl_query g).2, encodeQuery_eq_self⟩
  · rw [get_unread_items_eval jp g t tok continuation h]
    cases ht : t (listRequest g tok continuation) <;> simp [OpResult.trace]
    case ok body => cases hp : jp body <;> simp [hp, OpResult.trace]
  · have hsegs : (listRequest g tok continuation).url.segments =
        (pushSegs g.server_url readingListSegs).segments := by
      cases continuation <;> rfl
    rw [hsegs, readingListSegs, pushSegs_shape g.server_url "reader" _ (by decide)]
    by_cases hb : g.server_url.segments = [] ∨ g.server_url.segments = [""]
    · exact ⟨[], by rw [if_pos hb], Or.inr rfl⟩
    · exact ⟨g.server_url.segments, by rw [if_neg hb], Or.inl rfl⟩

/-- Witness for C3: with cursor `CUR` the query is exactly `c=CUR&` followed
by the fixed query string, the cursor unescaped. -/
theorem c3_witness :
    (get_unread_items jpNone gAuthed tOk (some "CUR")).trace =
      [listRequest gAuthed "abc123" (some "CUR")] ∧
    (listRequest gAuthed "abc123" (some "CUR")).url.query =
      some ("c=" ++ encodeQuery "CUR" ++ "&r=n&xt=user/-/state/com.google/read") ∧
    encodeQuery "CUR" = "CUR" := by
  have h := c3_list_request jpNone gAuthed tOk "abc123" (some "CUR") ⟨rfl, by decide, rfl⟩
  exact ⟨h.1, h.2.2.2.2.2.1 "CUR", h.2.2.2.2.2.2 "CUR" (by decide)⟩

/-! ## URL normalization lemmas for construction -/

/-- Appending a slash and stripping round-trips: `try_new` removes exactly
one trailing slash. -/
theorem stripTrailingSlash_concat (s : String) :
    stripTrailingSlash (s ++ "/") = s := by
  have h : (s ++ "/").data = s.data ++ ['/'] := by simp [String.data_append]
  simp only [stripTrailingSlash, h]
  simp [asString_data, mk_data, String.ext_iff]

/-- An input with no trailing slash is left unchanged. -/
theorem stripTrailingSlash_of_no_slash (s : String) (h : s.data.getLast? ≠ some '/') :
    stripTrailingSlash s = s := by
  unfold stripTrailingSlash
  split
  · simp_all
  · rfl

theorem splitOnSlash_ne_nil (l : List Char) : splitOnSlash l ≠ [] := by
  cases l with
  | nil => simp [splitOnSlash]
  | cons c cs =>
    rw [splitOnSlash]
    by_cases hc : c = '/'
    · simp [hc]
    · simp only [hc, if_false]
      cases splitOnSlash cs <;> simp

theorem splitOnSlash_no_slash (l : List Char) :
    ∀ part ∈ splitOnSlash l, ('/' : Char) ∉ part := by
  induction l with
  | nil =>
    intro part hp
    simp [splitOnSlash] at hp
    subst hp
    simp
  | cons c cs ih =>
    intro part hp
    rw [splitOnSlash] at hp
    by_cases hc : c = '/'
    · rw [if_pos hc] at hp
      rcases List.mem_cons.1 hp with h | h
      · subst h; simp
      · exact ih part h
    · rw [if_neg hc] at hp
      cases hsp : splitOnSlash cs with
      | nil =>
        rw [hsp] at hp
        simp at hp
        subst hp
        simp [Ne.symm hc]
      | cons x xs =>
        rw [hsp] at hp
        rcases List.mem_cons.1 hp with h | h
        · subst h
          intro hmem
          rcases List.mem_cons.1 hmem with h2 | h2
          · exact hc h2.symm
          · exact ih x (by rw [hsp]; exact List.mem_cons_self x xs) h2
        · exact ih part (by rw [hsp]; exact List.mem_cons_of_mem x h)

theorem parsePath_facts (r : List Char) :
    (parsePath r).1 ≠ [] ∧ ∀ part ∈ (parsePath r).1, ('/' : Char) ∉ part := by
  cases r with
  | nil => simp [parsePath]
  | cons c ps =>
    rw [parsePath]
    by_cases hc : c = '/'
    · rw [if_pos hc]
      exact ⟨splitOnSlash_ne_nil _, splitOnSlash_no_slash _⟩
    · rw [if_neg hc]
      simp

/-- A parsed URL has a nonempty segment list whose segments are slash-free. -/
theorem parse_facts (s : String) (u : Url) (hp : Url.parse s = some u) :
    u.segments ≠ [] ∧ ∀ seg ∈ u.segments, ('/' : Char) ∉ seg.data := by
  simp only [Url.parse] at hp
  cases hts : takeScheme s.data <;> simp only [hts] at hp
  case none => cases hp
  case some val =>
    obtain ⟨sch, rest⟩ := val
    split at hp
    · split at hp
      · split at hp
        · cases hp
        · rw [Option.some_inj] at hp
          subst hp
          constructor
          · simp [(parsePath_facts _).1]
          · intro seg hseg
            simp only [List.mem_map] at hseg
            obtain ⟨part, hpart, hseg⟩ := hseg
            rw [← hseg, asString_data]
            exact (parsePath_facts _).2 part hpart
      · cases hp
    · cases hp

/-- The serialized path tracks the last segment: joining slash-free segments
ends with the last segment's characters. -/
theorem joinSlash_last (segs : List String) (sl : String)
    (h : segs.getLast? = some sl) (hne : sl.data ≠ []) :
    (joinSlash segs).data.getLast? = sl.data.getLast? := by
  induction segs with
  | nil => cases h
  | cons a as ih =>
    cases as with
    | nil =>
      simp at h
      subst h
      rfl
    | cons b bs =>
      have h2 : (b :: bs).getLast? = some sl := by
        rw [← h, List.getLast?_cons_cons]
      have ihh := ih h2
      have hne2 : (joinSlash (b :: bs)).data ≠ [] := by
        intro hnil
        rw [hnil] at ihh
        cases hl : sl.data.getLast? with
        | none => exact hne (List.getLast?_eq_none_iff.1 hl)
        | some c => rw [hl] at ihh; cases ihh
      have heq : joinSlash (a :: b :: bs) = a ++ "/" ++ joinSlash (b :: bs) := rfl
      rw [heq]
      have hdata : (a ++ "/" ++ joinSlash (b :: bs)).data =
          (a ++ "/").data ++ (joinSlash (b :: bs)).data := by
        simp [String.data_append]
      rw [hdata, List.getLast?_append_of_ne_nil _ hne2, ihh]

/-- Membership form of `getLast?`. -/
theorem getLast?_mem_self {α : Type} (l : List α) (a : α) (h : l.getLast? = some a) :
    a ∈ l := by
  obtain ⟨hne, heq⟩ := List.mem_getLast?_eq_getLast (show a ∈ l.getLast? from h)
  rw [heq]
  exact List.getLast_mem hne

/-- A parsed URL whose last segment is nonempty has a serialized path that
does not end in a slash. -/
theorem parse_path_no_trailing_slash (s : String) (u : Url) (hp : Url.parse s = some u)
    (hlast : u.segments.getLast? ≠ some "") :
    (Url.pathStr u).data.getLast? ≠ some '/' := by
  obtain ⟨hnn, hns⟩ := parse_facts s u hp
  cases hsl : u.segments.getLast? with
  | none => exact absurd (List.getLast?_eq_none_iff.1 hsl) hnn
  | some sl =>
    have hslne : sl ≠ "" := fun h => hlast (by rw [hsl, h])
    have hsldata : sl.data ≠ [] := by
      intro h
      exact hslne (String.ext (by rw [h]))
    have hmem : sl ∈ u.segments := getLast?_mem_self _ _ hsl
    have hjoin := joinSlash_last u.segments sl hsl hsldata
    have hdata : (Url.pathStr u).data =
        ("/" : String).data ++ (joinSlash u.segments).data := by
      simp [Url.pathStr, String.data_append]
    have hne2 : (joinSlash u.segments).data ≠ [] := by
      intro hnil
      rw [hnil] at hjoin
      cases hl : sl.data.getLast? with
      | none => exact hsldata (List.getLast?_eq_none_iff.1 hl)
      | some c => rw [hl] at hjoin; cases hjoin
    rw [hdata, List.getLast?_append_of_ne_nil _ hne2, hjoin]
    intro hcon
    exact hns sl hmem (getLast?_mem_self _ _ hcon)

/-- Counterexample for C4: for the accepted input `http://x/` the stored base
URL serializes to `http://x/` — ending in `/` (URL normalization restores the
root path after the strip); and the inputs `http://x/a//` and `http://x/a/`,
which differ only by one trailing slash, produce different stored base URLs. -/
theorem c4_counterexample :
    (∃ g, try_new "u" "p" "http://x/" = Except.ok g ∧
      Url.toStr g.server_url = "http://x/" ∧
      (Url.toStr g.server_url).data.getLast? = some '/') ∧
    (try_new "u" "p" "http://x/a//").toOption.map (fun g => g.server_url) ≠
      (try_new "u" "p" "http://x/a/").toOption.map (fun g => g.server_url) := by
  constructor
  · exact ⟨⟨"u", "p", ⟨"http", "x", [""], none, none⟩, none, none, false⟩,
      by decide, by decide, by decide⟩
  · decide

/-- C4 (amended): `try_new` strips exactly one trailing `/` before parsing,
so inputs `s` and `s ++ "/"` with `s` not slash-terminated construct
identical sessions; the stored URL is the parse of the stripped input; and
whenever the parsed path's last segment is nonempty, the stored path does not
end in `/`.  (As stated the claim fails: the stored URL for `http://x/` ends
in `/`, and inputs differing by one slash but both slash-terminated differ —
see the counterexample.) -/
theorem c4_url_normalization :
    (∀ user pw s, s.data.getLast? ≠ some '/' →
      try_new user pw (s ++ "/") = try_new user pw s) ∧
    (∀ user pw s g, try_new user pw s = Except.ok g →
      (s.data.getLast? = some '/' →
        Url.parse ((s.data.dropLast).asString) = some g.server_url) ∧
      (s.data.getLast? ≠ some '/' → Url.parse s = some g.server_url) ∧
      (g.server_url.segments.getLast? ≠ some "" →
        (Url.pathStr g.server_url).data.getLast? ≠ some '/')) := by
  constructor
  · intro user pw s h
    unfold try_new
    rw [stripTrailingSlash_concat, stripTrailingSlash_of_no_slash s h]
  · intro user pw s g hg
    simp only [try_new] at hg
    cases hp : Url.parse (stripTrailingSlash s) <;> simp only [hp] at hg
    case none => cases hg
    case some u =>
      rw [Except.ok.injEq] at hg
      have hsu : g.server_url = u := by rw [← hg]
      refine ⟨?_, ?_, ?_⟩
      · intro hlast
        rw [hsu, ← hp]
        have hstrip : stripTrailingSlash s = (s.data.dropLast).asString := by
          unfold stripTrailingSlash
          rw [hlast]
          rfl
        rw [hstrip]
      · intro hlast
        rw [hsu, ← hp, stripTrailingSlash_of_no_slash s hlast]
      · intro hlast
        rw [hsu] at hlast ⊢
        exact parse_path_no_trailing_slash _ u hp hlast

/-- Witness for C4: `http://x/a/` and `http://x/a` construct identical
sessions, and the stored path for `http://x/a` does not end in `/`. -/
theorem c4_witness :
    try_new "u" "p" ("http://x/a" ++ "/") = try_new "u" "p" "http://x/a" ∧
    (∃ g, try_new "u" "p" "http://x/a" = Except.ok g ∧
      (Url.pathStr g.server_url).data.getLast? ≠ some '/') := by
  refine ⟨c4_url_normalization.1 "u" "p" "http://x/a" (by decide),
    ⟨⟨"u", "p", ⟨"http", "x", ["a"], none, none⟩, none, none, false⟩, by decide, ?_⟩⟩
  exact (c4_url_normalization.2 "u" "p" "http://x/a"
    ⟨"u", "p", ⟨"http", "x", ["a"], none, none⟩, none, none, false⟩ (by decide)).2.2
    (by decide)

end GReader
